import Mathlib

/-!
Verification of the ecasound core against its natural-language
specification.

The development shallowly embeds the relevant parts of the source tree:

* `src/kvutils/kvu_utils.cpp` — option-string parsing helpers
  (`kvu_get_arguments`, `kvu_get_argument_prefix`,
  `kvu_priv_strip_escapes`, `kvu_string_to_tokens_quoted`,
  `kvu_vector_to_string`);
* `src/libecasound/eca-chainsetup.cpp` — the chainsetup state
  (buffering-mode selection, `enable()`, audio-object add/remove);
* `src/libecasound/audioio-proxy-server.cpp` — one pass of the proxy
  server work loop.

C++ `std::string` values are modelled as `List Char`; machine integers
are modelled as `Nat`/`Int` (no arithmetic in the modelled code comes
near an overflow boundary).  Fallible operations return `Option`/`Except`
or pair the new state with an optional error.  Code that the sources
reach only through interfaces not present in the tree (the proxy
wrapper's delegation, the proxy ring primitives, the comma-escape
helper of the spec's round-trip property) is modelled from the spec and
marked as such in its doc comment.
-/

set_option autoImplicit false

/-- C++ strings are modelled as lists of characters. -/
abbrev Str := List Char

/-! ## kvu_utils.cpp -/

/-- C `isspace` on the ASCII range: space, tab, newline, vertical tab,
form feed, carriage return. -/
def isSpaceChar (c : Char) : Bool :=
  c = ' ' || c = '\t' || c = '\n' || c = '\x0b' || c = '\x0c' || c = '\r'

/-- Body of the loop of `kvu_string_to_tokens_quoted` (kvu_utils.cpp:95).
`quoteflag` and `stmp` are the local variables of the C++ function; the
result is `none` when the escape branch would dereference past the end
of the string (`p++; stmp += *p;` with `p` at the final character),
which in the C++ is undefined behaviour. -/
def kvu_string_to_tokens_quoted_go : Str → Bool → Str → Option (List Str)
  | [], _, stmp => some (if stmp.length > 0 then [stmp] else [])
  | c :: rest, quoteflag, stmp =>
    if c = '"' then
      kvu_string_to_tokens_quoted_go rest (!quoteflag) stmp
    else if c = '\\' then
      match rest with
      | [] => none
      | d :: rest2 => kvu_string_to_tokens_quoted_go rest2 quoteflag (stmp ++ [d])
    else if isSpaceChar c = false || quoteflag = true then
      kvu_string_to_tokens_quoted_go rest quoteflag (stmp ++ [c])
    else if stmp = [] then
      kvu_string_to_tokens_quoted_go rest quoteflag []
    else
      (kvu_string_to_tokens_quoted_go rest quoteflag []).map (stmp :: ·)

/-- `kvu_string_to_tokens_quoted` (kvu_utils.cpp:95): whitespace-separated
tokenisation with double quotes and backslash escapes. -/
def kvu_string_to_tokens_quoted (s : Str) : Option (List Str) :=
  kvu_string_to_tokens_quoted_go s false []

/-- A top-level backslash that is the final character of the string: on
such inputs the escape branch of `kvu_string_to_tokens_quoted` reads one
character past the end.  A backslash that is itself escaped by a
preceding one does not count, which is exactly "the string ends with an
unescaped backslash". -/
def endsWithUnescapedBackslash : Str → Bool
  | [] => false
  | c :: rest =>
    if c = '\\' then
      match rest with
      | [] => true
      | _ :: rest2 => endsWithUnescapedBackslash rest2
    else endsWithUnescapedBackslash rest

/-- One step of `kvu_priv_strip_escapes` (kvu_utils.cpp:404):
`input->find("\\,")` followed by `input->replace(pos, 2, ",")`, i.e.
replace the leftmost backslash-comma by a comma.  `none` when there is
no occurrence (the loop of the C++ function terminates). -/
def kvu_priv_strip_escapes_step : Str → Option Str
  | [] => none
  | c :: rest =>
    if c = '\\' ∧ rest.head? = some ',' then some rest
    else (kvu_priv_strip_escapes_step rest).map (fun t => c :: t)

/-- The `while` loop of `kvu_priv_strip_escapes`, with explicit fuel.
Each replacement shortens the string by one character, so fuel equal to
the length of the string always reaches the fixpoint. -/
def kvu_priv_strip_escapes_fuel : Nat → Str → Str
  | 0, s => s
  | n + 1, s =>
    match kvu_priv_strip_escapes_step s with
    | none => s
    | some t => kvu_priv_strip_escapes_fuel n t

/-- `kvu_priv_strip_escapes` (kvu_utils.cpp:404): converts all
backslash-commas into commas. -/
def kvu_priv_strip_escapes (s : Str) : Str :=
  kvu_priv_strip_escapes_fuel s.length s

/-- The argument-splitting loop of `kvu_get_arguments`
(kvu_utils.cpp:439-449).  The C++ walks iterator `b` over the string and
uses `kvu_priv_find_next_instance` to locate the next comma whose
predecessor character is not a backslash; this embedding walks the same
region character by character, carrying the predecessor character in
`prev` and the current argument in `target`.  A comma whose predecessor
is a backslash is an ordinary character; at an unescaped comma the
current argument is emitted (if non-empty) after stripping escapes. -/
def kvu_get_arguments_go : Str → Option Char → Str → List Str
  | [], _, target =>
    if target.length > 0 then [kvu_priv_strip_escapes target] else []
  | c :: rest, prev, target =>
    if c = ',' ∧ prev ≠ some '\\' then
      (if target.length > 0 then [kvu_priv_strip_escapes target] else []) ++
        kvu_get_arguments_go rest (some c) []
    else
      kvu_get_arguments_go rest (some c) (target ++ [c])

/-- `kvu_get_arguments` (kvu_utils.cpp:425): returns the arguments of a
formatted string `"something:arg1,arg2,...,argn"`.  The region start is
located with a plain `find(':')` (escapes are not considered for the
colon); if there is no colon and the string is non-empty, the whole
string is the argument region. -/
def kvu_get_arguments (argu : Str) : List Str :=
  match List.findIdx? (fun c => c = ':') argu with
  | none =>
    if argu.length > 0 then kvu_get_arguments_go argu none [] else []
  | some i => kvu_get_arguments_go (argu.drop (i + 1)) (some ':') []

/-- `kvu_get_argument_prefix` (kvu_utils.cpp:464); the `_pfx` spelling
stands for the source's `prefix` word.  `b = find('-')`, `e = find(':')`;
if `-` was found and is not the last character, the result is
`string(b+1, e)`, otherwise the empty string. -/
def kvu_get_argument_pfx (argu : Str) : Str :=
  match List.findIdx? (fun c => c = '-') argu with
  | none => []
  | some b =>
    let e := (List.findIdx? (fun c => c = ':') argu).getD argu.length
    if b + 1 < argu.length then (argu.drop (b + 1)).take (e - (b + 1))
    else []

/-- `kvu_vector_to_string` (kvu_utils.cpp:206): join with a separator. -/
def kvu_vector_to_string : List Str → Str → Str
  | [], _ => []
  | [x], _ => x
  | x :: y :: rest, sep => x ++ sep ++ kvu_vector_to_string (y :: rest) sep

/-- Modelled from the spec: the escape function of the round-trip
property (§8.1, "escape round-trip"); per §6 a literal comma inside an
argument is written `\,`, so escaping replaces every comma by a
backslash-comma.  The repository does not carry a named escape helper. -/
def escapeCommas (s : Str) : Str :=
  (s.map (fun c => if c = ',' then ['\\', ','] else [c])).flatten

/-- Follows the spec's words (§6, "Top-level separator between prefix
and arg list: the first unescaped `:`"): the argument region starts
after the first colon whose predecessor character is not a backslash;
the escape convention is the one `kvu_priv_find_next_instance` uses for
commas.  Used only to compare the spec's description against
`kvu_get_arguments`. -/
def findFirstUnescaped (value : Char) : Str → Option Char → Nat → Option Nat
  | [], _, _ => none
  | c :: rest, prev, idx =>
    if c = value ∧ prev ≠ some '\\' then some idx
    else findFirstUnescaped value rest (some c) (idx + 1)

/-- Follows the spec's words: argument splitting where the top-level
separator is the first unescaped colon (instead of the plain first
colon that the source uses). -/
def kvu_get_arguments_spec_colon (argu : Str) : List Str :=
  match findFirstUnescaped ':' argu none 0 with
  | none =>
    if argu.length > 0 then kvu_get_arguments_go argu none [] else []
  | some i => kvu_get_arguments_go (argu.drop (i + 1)) (some ':') []

/-! ## Supporting lemmas about the kvu functions -/

/-- The last character of `t` when there is one, otherwise the previous
character `prev`; the predecessor character seen by the parsing walk
after consuming `t`. -/
def lastPrevOf (t : Str) (prev : Option Char) : Option Char :=
  t.getLast?.or prev

theorem lastPrevOf_cons (c : Char) (t : Str) (prev : Option Char) :
    lastPrevOf (c :: t) prev = lastPrevOf t (some c) := by
  cases t with
  | nil => simp [lastPrevOf]
  | cons d t' =>
    simp only [lastPrevOf, List.getLast?_cons_cons]
    cases hl : (d :: t').getLast? with
    | none => simp at hl
    | some x => simp [hl]

theorem strip_step_ne_nil {s t : Str} (h : kvu_priv_strip_escapes_step s = some t) :
    t ≠ [] := by
  induction s generalizing t with
  | nil => simp [kvu_priv_strip_escapes_step] at h
  | cons c rest ih =>
    by_cases hc : c = '\\' ∧ rest.head? = some ','
    · simp [kvu_priv_strip_escapes_step, hc] at h
      subst h
      intro hnil
      rw [hnil] at hc
      simp at hc
    · simp [kvu_priv_strip_escapes_step, hc] at h
      obtain ⟨u, _, hu⟩ := h
      subst hu
      simp

theorem strip_fuel_ne_nil (n : Nat) (s : Str) (h : s ≠ []) :
    kvu_priv_strip_escapes_fuel n s ≠ [] := by
  induction n generalizing s with
  | zero => simpa [kvu_priv_strip_escapes_fuel]
  | succ m ih =>
    rw [kvu_priv_strip_escapes_fuel]
    cases hstep : kvu_priv_strip_escapes_step s with
    | none => simpa
    | some t => exact ih t (strip_step_ne_nil hstep)

theorem kvu_priv_strip_escapes_ne_nil {s : Str} (h : s ≠ []) :
    kvu_priv_strip_escapes s ≠ [] :=
  strip_fuel_ne_nil s.length s h

theorem strip_step_none_of_no_backslash {s : Str} (h : ('\\' : Char) ∉ s) :
    kvu_priv_strip_escapes_step s = none := by
  induction s with
  | nil => rfl
  | cons c rest ih =>
    have hc : ¬(c = '\\') := fun hh => h (hh ▸ List.mem_cons_self c rest)
    have : ¬(c = '\\' ∧ rest.head? = some ',') := fun hh => hc hh.1
    simp [kvu_priv_strip_escapes_step, this,
      ih (fun hm => h (List.mem_cons_of_mem c hm))]

theorem strip_step_none_of_no_comma {s : Str} (h : (',' : Char) ∉ s) :
    kvu_priv_strip_escapes_step s = none := by
  induction s with
  | nil => rfl
  | cons c rest ih =>
    have hno : ¬(c = '\\' ∧ rest.head? = some ',') := by
      rintro ⟨-, hh⟩
      cases rest with
      | nil => simp at hh
      | cons d r =>
        simp at hh
        exact h (hh ▸ List.mem_cons_of_mem c (List.mem_cons_self d r))
    simp [kvu_priv_strip_escapes_step, hno,
      ih (fun hm => h (List.mem_cons_of_mem c hm))]

theorem strip_fuel_of_step_none {s : Str} (n : Nat)
    (h : kvu_priv_strip_escapes_step s = none) :
    kvu_priv_strip_escapes_fuel n s = s := by
  cases n with
  | zero => rfl
  | succ m => rw [kvu_priv_strip_escapes_fuel, h]

theorem kvu_priv_strip_escapes_of_no_comma {s : Str} (h : (',' : Char) ∉ s) :
    kvu_priv_strip_escapes s = s :=
  strip_fuel_of_step_none s.length (strip_step_none_of_no_comma h)

theorem escapeCommas_nil : escapeCommas [] = [] := rfl

theorem escapeCommas_cons (c : Char) (t : Str) :
    escapeCommas (c :: t)
      = (if c = ',' then ['\\', ','] else [c]) ++ escapeCommas t := by
  simp [escapeCommas]

theorem escapeCommas_of_no_comma {t : Str} (h : (',' : Char) ∉ t) :
    escapeCommas t = t := by
  induction t with
  | nil => rfl
  | cons c rest ih =>
    have hc : ¬(c = ',') := fun hh => h (hh ▸ List.mem_cons_self c rest)
    rw [escapeCommas_cons]
    simp [hc, ih (fun hm => h (List.mem_cons_of_mem c hm))]

theorem escapeCommas_ne_nil {t : Str} (h : t ≠ []) : escapeCommas t ≠ [] := by
  cases t with
  | nil => exact absurd rfl h
  | cons c rest =>
    rw [escapeCommas_cons]
    by_cases hc : c = ',' <;> simp [hc]

theorem length_le_length_escapeCommas (t : Str) :
    t.length ≤ (escapeCommas t).length := by
  induction t with
  | nil => simp [escapeCommas_nil]
  | cons c rest ih =>
    rw [escapeCommas_cons]
    by_cases hc : c = ',' <;> simp [hc] <;> omega


theorem strip_step_escape_append {u : Str} (w : Str) (h : ('\\' : Char) ∉ u) :
    kvu_priv_strip_escapes_step (u ++ '\\' :: ',' :: w)
      = some (u ++ ',' :: w) := by
  induction u with
  | nil => simp [kvu_priv_strip_escapes_step]
  | cons c u' ih =>
    have hc : ¬(c = '\\') := fun hh => h (hh ▸ List.mem_cons_self c u')
    have hno : ¬(c = '\\' ∧ (u' ++ '\\' :: ',' :: w).head? = some ',') :=
      fun hh => hc hh.1
    rw [List.cons_append]
    rw [show kvu_priv_strip_escapes_step (c :: (u' ++ '\\' :: ',' :: w))
          = if c = '\\' ∧ (u' ++ '\\' :: ',' :: w).head? = some ','
            then some (u' ++ '\\' :: ',' :: w)
            else (kvu_priv_strip_escapes_step (u' ++ '\\' :: ',' :: w)).map
                   (fun t => c :: t) from rfl]
    rw [if_neg hno, ih (fun hm => h (List.mem_cons_of_mem c hm))]
    rfl

theorem strip_fuel_succ_of_step {s t : Str} (m : Nat)
    (h : kvu_priv_strip_escapes_step s = some t) :
    kvu_priv_strip_escapes_fuel (m + 1) s = kvu_priv_strip_escapes_fuel m t := by
  rw [kvu_priv_strip_escapes_fuel, h]

theorem strip_fuel_escape : ∀ (n : Nat) (u t : Str), ('\\' : Char) ∉ u →
    ('\\' : Char) ∉ t → t.count ',' ≤ n →
    kvu_priv_strip_escapes_fuel n (u ++ escapeCommas t) = u ++ t := by
  intro n
  induction n with
  | zero =>
    intro u t hu ht hc
    have hnc : (',' : Char) ∉ t := by
      intro hm
      have := List.count_pos_iff.mpr hm
      omega
    rw [escapeCommas_of_no_comma hnc]
    rfl
  | succ m ih =>
    intro u t hu ht hc
    induction t generalizing u with
    | nil =>
      rw [escapeCommas_nil]
      simp only [List.append_nil]
      exact strip_fuel_of_step_none (m + 1) (strip_step_none_of_no_backslash hu)
    | cons c t' iht =>
      by_cases hcm : c = ','
      · subst hcm
        have ht' : ('\\' : Char) ∉ t' := fun hm => ht (List.mem_cons_of_mem _ hm)
        have e1 : u ++ escapeCommas (',' :: t')
            = u ++ '\\' :: ',' :: escapeCommas t' := by
          rw [escapeCommas_cons]
          simp
        rw [e1, strip_fuel_succ_of_step m (strip_step_escape_append (escapeCommas t') hu)]
        have e2 : u ++ ',' :: escapeCommas t' = (u ++ [',']) ++ escapeCommas t' := by
          simp
        have hu' : ('\\' : Char) ∉ u ++ [','] := by
          intro hm
          rcases List.mem_append.mp hm with hm1 | hm2
          · exact hu hm1
          · simp at hm2
        have hcc : t'.count ',' ≤ m := by
          have : (',' :: t').count ',' = t'.count ',' + 1 := by
            simp [List.count_cons]
          omega
        rw [e2, ih (u ++ [',']) t' hu' ht' hcc]
        simp
      · have hcb : ¬(c = '\\') := fun hh => ht (hh ▸ List.mem_cons_self c t')
        have e3 : u ++ escapeCommas (c :: t') = (u ++ [c]) ++ escapeCommas t' := by
          rw [escapeCommas_cons]
          simp [hcm]
        have hu' : ('\\' : Char) ∉ u ++ [c] := by
          intro hm
          rcases List.mem_append.mp hm with hm1 | hm2
          · exact hu hm1
          · simp at hm2
            exact hcb hm2.symm
        have ht' : ('\\' : Char) ∉ t' := fun hm => ht (List.mem_cons_of_mem _ hm)
        have hcc : t'.count ',' ≤ m + 1 := by
          have : (c :: t').count ',' = t'.count ',' := by
            simp [List.count_cons, hcm]
          omega
        rw [e3, iht (u ++ [c]) hu' ht' hcc]
        simp

theorem kvu_priv_strip_escapes_escapeCommas {t : Str} (h : ('\\' : Char) ∉ t) :
    kvu_priv_strip_escapes (escapeCommas t) = t := by
  have h1 : t.count ',' ≤ (escapeCommas t).length := by
    have h2 := List.count_le_length (',' : Char) t
    have h3 := length_le_length_escapeCommas t
    omega
  have := strip_fuel_escape (escapeCommas t).length [] t (by simp) h h1
  simpa using this

theorem go_cons_sep {c : Char} (s : Str) (prev : Option Char) (acc : Str)
    (hc : c = ',') (hp : prev ≠ some '\\') :
    kvu_get_arguments_go (c :: s) prev acc
      = (if acc.length > 0 then [kvu_priv_strip_escapes acc] else []) ++
          kvu_get_arguments_go s (some c) [] := by
  rw [kvu_get_arguments_go, if_pos ⟨hc, hp⟩]

theorem go_cons_plain {c : Char} (s : Str) (prev : Option Char) (acc : Str)
    (h : ¬(c = ',' ∧ prev ≠ some '\\')) :
    kvu_get_arguments_go (c :: s) prev acc
      = kvu_get_arguments_go s (some c) (acc ++ [c]) := by
  rw [kvu_get_arguments_go, if_neg h]

theorem go_append_no_comma : ∀ (t : Str), (',' : Char) ∉ t →
    ∀ (s : Str) (prev : Option Char) (acc : Str),
    kvu_get_arguments_go (t ++ s) prev acc
      = kvu_get_arguments_go s (lastPrevOf t prev) (acc ++ t) := by
  intro t
  induction t with
  | nil =>
    intro _ s prev acc
    simp [lastPrevOf]
  | cons c t' ih =>
    intro h s prev acc
    have hc : ¬(c = ',') := fun hh => h (hh ▸ List.mem_cons_self c t')
    rw [List.cons_append,
      go_cons_plain (t' ++ s) prev acc (fun hh => hc hh.1),
      ih (fun hm => h (List.mem_cons_of_mem c hm)) s (some c) (acc ++ [c]),
      lastPrevOf_cons]
    simp

theorem go_append_escaped : ∀ (t : Str), ('\\' : Char) ∉ t →
    ∀ (s : Str) (prev : Option Char) (acc : Str),
    kvu_get_arguments_go (escapeCommas t ++ s) prev acc
      = kvu_get_arguments_go s (lastPrevOf (escapeCommas t) prev)
          (acc ++ escapeCommas t) := by
  intro t
  induction t with
  | nil =>
    intro _ s prev acc
    simp [escapeCommas_nil, lastPrevOf]
  | cons c t' ih =>
    intro h s prev acc
    have ht' : ('\\' : Char) ∉ t' := fun hm => h (List.mem_cons_of_mem c hm)
    by_cases hcm : c = ','
    · subst hcm
      have e1 : escapeCommas (',' :: t') = '\\' :: ',' :: escapeCommas t' := by
        rw [escapeCommas_cons]
        simp
      rw [e1, List.cons_append, List.cons_append,
        go_cons_plain _ prev acc (by simp),
        go_cons_plain _ (some '\\') (acc ++ ['\\']) (by simp),
        ih ht' s (some ',') ((acc ++ ['\\']) ++ [','])]
      rw [lastPrevOf_cons, lastPrevOf_cons]
      simp
    · have hcb : ¬(c = '\\') := fun hh => h (hh ▸ List.mem_cons_self c t')
      have e1 : escapeCommas (c :: t') = c :: escapeCommas t' := by
        rw [escapeCommas_cons]
        simp [hcm]
      rw [e1, List.cons_append,
        go_cons_plain _ prev acc (fun hh => hcm hh.1),
        ih ht' s (some c) (acc ++ [c]),
        lastPrevOf_cons]
      simp

theorem getLast?_escapeCommas_ne_backslash {t : Str} (h : ('\\' : Char) ∉ t) :
    (escapeCommas t).getLast? ≠ some '\\' := by
  induction t with
  | nil => simp [escapeCommas_nil]
  | cons c t' ih =>
    have ht' : ('\\' : Char) ∉ t' := fun hm => h (List.mem_cons_of_mem c hm)
    rw [escapeCommas_cons]
    by_cases hte : t' = []
    · subst hte
      rw [escapeCommas_nil, List.append_nil]
      by_cases hcm : c = ','
      · simp [hcm]
      · have hcb : ¬(c = '\\') := fun hh => h (hh ▸ List.mem_cons_self c [])
        simp [hcm]
        intro hh
        exact hcb hh
    · have hne : escapeCommas t' ≠ [] := escapeCommas_ne_nil hte
      rw [List.getLast?_append_of_ne_nil _ hne]
      exact ih ht'
theorem lastPrevOf_ne_backslash {t : Str} {p : Option Char}
    (h1 : t ≠ []) (h2 : t.getLast? ≠ some '\\') :
    lastPrevOf t p ≠ some '\\' := by
  rw [lastPrevOf]
  obtain ⟨x, hx⟩ := Option.isSome_iff_exists.mp (List.getLast?_isSome.mpr h1)
  rw [hx]
  rw [hx] at h2
  simpa using h2

theorem roundtrip_plain : ∀ (L : List Str),
    (∀ t ∈ L, t ≠ [] ∧ (',' : Char) ∉ t ∧ t.getLast? ≠ some '\\') →
    ∀ (c : Char), c ≠ '\\' →
    kvu_get_arguments_go (kvu_vector_to_string L [',']) (some c) [] = L := by
  intro L
  induction L with
  | nil =>
    intro _ c _
    rfl
  | cons t L' ih =>
    intro h c hc
    obtain ⟨htne, htnc, htla⟩ := h t (List.mem_cons_self t L')
    have hstrip : kvu_priv_strip_escapes t = t :=
      kvu_priv_strip_escapes_of_no_comma htnc
    have htlen : t.length > 0 := List.length_pos.mpr htne
    cases L' with
    | nil =>
      rw [show kvu_vector_to_string [t] [','] = t ++ [] by simp [kvu_vector_to_string],
        go_append_no_comma t htnc [] (some c) []]
      simp [kvu_get_arguments_go, htlen, hstrip]
    | cons u L'' =>
      have e1 : kvu_vector_to_string (t :: u :: L'') [',']
          = t ++ (',' :: kvu_vector_to_string (u :: L'') [',']) := by
        rw [kvu_vector_to_string]
        simp
      rw [e1, go_append_no_comma t htnc _ (some c) [],
        go_cons_sep _ _ _ rfl (lastPrevOf_ne_backslash htne htla)]
      rw [ih (fun x hx => h x (List.mem_cons_of_mem t hx)) ',' (by decide)]
      simp [htlen, hstrip]

theorem roundtrip_escaped : ∀ (M : List Str),
    (∀ t ∈ M, t ≠ [] ∧ ('\\' : Char) ∉ t) →
    ∀ (c : Char), c ≠ '\\' →
    kvu_get_arguments_go (kvu_vector_to_string (M.map escapeCommas) [','])
      (some c) [] = M := by
  intro M
  induction M with
  | nil =>
    intro _ c _
    rfl
  | cons t M' ih =>
    intro h c hc
    obtain ⟨htne, htnb⟩ := h t (List.mem_cons_self t M')
    have hstrip : kvu_priv_strip_escapes (escapeCommas t) = t :=
      kvu_priv_strip_escapes_escapeCommas htnb
    have hene : escapeCommas t ≠ [] := escapeCommas_ne_nil htne
    have helen : (escapeCommas t).length > 0 := List.length_pos.mpr hene
    have hlast : lastPrevOf (escapeCommas t) (some c) ≠ some '\\' :=
      lastPrevOf_ne_backslash hene (getLast?_escapeCommas_ne_backslash htnb)
    cases M' with
    | nil =>
      simp only [List.map_cons, List.map_nil]
      rw [show kvu_vector_to_string [escapeCommas t] [','] = escapeCommas t ++ []
            by simp [kvu_vector_to_string],
        go_append_escaped t htnb [] (some c) []]
      simp [kvu_get_arguments_go, helen, hstrip]
    | cons u M'' =>
      have e1 : kvu_vector_to_string ((t :: u :: M'').map escapeCommas) [',']
          = escapeCommas t ++
              (',' :: kvu_vector_to_string ((u :: M'').map escapeCommas) [',']) := by
        simp only [List.map_cons]
        rw [kvu_vector_to_string]
        simp
      rw [e1, go_append_escaped t htnb _ (some c) [],
        go_cons_sep _ _ _ rfl hlast]
      rw [ih (fun x hx => h x (List.mem_cons_of_mem t hx)) ',' (by decide)]
      simp [helen, hstrip]

theorem kvu_get_arguments_x_colon (w : Str) :
    kvu_get_arguments ('x' :: ':' :: w) = kvu_get_arguments_go w (some ':') [] := by
  rw [kvu_get_arguments]
  rw [show List.findIdx? (fun c => c = ':') ('x' :: ':' :: w) = some 1 by
    rw [List.findIdx?_cons]
    simp [List.findIdx?_cons]]
  rfl

theorem mem_go_ne_nil : ∀ (w : Str) (prev : Option Char) (acc t : Str),
    t ∈ kvu_get_arguments_go w prev acc → t ≠ [] := by
  intro w
  induction w with
  | nil =>
    intro prev acc t ht
    rw [kvu_get_arguments_go] at ht
    by_cases hl : acc.length > 0
    · rw [if_pos hl] at ht
      simp at ht
      subst ht
      exact kvu_priv_strip_escapes_ne_nil (by
        intro hnil
        rw [hnil] at hl
        simp at hl)
    · rw [if_neg hl] at ht
      simp at ht
  | cons c rest ih =>
    intro prev acc t ht
    rw [kvu_get_arguments_go] at ht
    by_cases hsep : c = ',' ∧ prev ≠ some '\\'
    · rw [if_pos hsep] at ht
      rcases List.mem_append.mp ht with h1 | h2
      · by_cases hl : acc.length > 0
        · rw [if_pos hl] at h1
          simp at h1
          subst h1
          exact kvu_priv_strip_escapes_ne_nil (by
            intro hnil
            rw [hnil] at hl
            simp at hl)
        · rw [if_neg hl] at h1
          simp at h1
      · exact ih (some c) [] t h2
    · rw [if_neg hsep] at ht
      exact ih (some c) (acc ++ [c]) t ht

theorem tokens_go_nil (q : Bool) (acc : Str) :
    kvu_string_to_tokens_quoted_go [] q acc
      = some (if acc.length > 0 then [acc] else []) := by
  rw [kvu_string_to_tokens_quoted_go.eq_def]

theorem tokens_go_cons (c : Char) (rest : Str) (q : Bool) (acc : Str) :
    kvu_string_to_tokens_quoted_go (c :: rest) q acc
      = (if c = '"' then kvu_string_to_tokens_quoted_go rest (!q) acc
         else if c = '\\' then
           (match rest with
            | [] => none
            | d :: rest2 => kvu_string_to_tokens_quoted_go rest2 q (acc ++ [d]))
         else if isSpaceChar c = false || q = true then
           kvu_string_to_tokens_quoted_go rest q (acc ++ [c])
         else if acc = [] then kvu_string_to_tokens_quoted_go rest q []
         else (kvu_string_to_tokens_quoted_go rest q []).map (acc :: ·)) := by
  rw [kvu_string_to_tokens_quoted_go.eq_def]
  rfl

theorem ends_backslash_nil : endsWithUnescapedBackslash [] = false := by
  rw [endsWithUnescapedBackslash.eq_def]

theorem ends_backslash_cons (c : Char) (rest : Str) :
    endsWithUnescapedBackslash (c :: rest)
      = (if c = '\\' then
           (match rest with
            | [] => true
            | _ :: rest2 => endsWithUnescapedBackslash rest2)
         else endsWithUnescapedBackslash rest) := by
  rw [endsWithUnescapedBackslash.eq_def]
  rfl

theorem isSome_tokens_quoted_go : ∀ (s : Str) (q : Bool) (acc : Str),
    (kvu_string_to_tokens_quoted_go s q acc).isSome
      = !endsWithUnescapedBackslash s
  | [], q, acc => by
    rw [tokens_go_nil, ends_backslash_nil]
    rfl
  | c :: rest, q, acc => by
    rw [tokens_go_cons, ends_backslash_cons]
    by_cases hq : c = '"'
    · have hb : ¬(c = '\\') := by
        subst hq
        decide
      rw [if_pos hq, if_neg hb]
      exact isSome_tokens_quoted_go rest (!q) acc
    · by_cases hb : c = '\\'
      · rw [if_neg hq, if_pos hb, if_pos hb]
        cases rest with
        | nil => rfl
        | cons d rest2 =>
          show (kvu_string_to_tokens_quoted_go rest2 q (acc ++ [d])).isSome
            = !endsWithUnescapedBackslash rest2
          exact isSome_tokens_quoted_go rest2 q (acc ++ [d])
      · rw [if_neg hq, if_neg hb, if_neg hb]
        by_cases hsp : isSpaceChar c = false || q = true
        · rw [if_pos hsp]
          exact isSome_tokens_quoted_go rest q (acc ++ [c])
        · rw [if_neg hsp]
          by_cases hacc : acc = []
          · rw [if_pos hacc]
            exact isSome_tokens_quoted_go rest q []
          · rw [if_neg hacc, Option.isSome_map']
            exact isSome_tokens_quoted_go rest q []

/-! ## Claims C6, C7, C8, C10 -/

/-- C6: `kvu_get_arguments` splits the argument list on unescaped
commas, converts every backslash-comma into a literal comma with the
backslash stripped, and never emits an empty argument; in particular
parsing the token `-x:foo\,bar,baz` yields exactly `["foo,bar", "baz"]`. -/
theorem claim_C6 (s t : Str) (h : t ∈ kvu_get_arguments s) :
    t ≠ [] ∧
    kvu_get_arguments ("-x:foo\\,bar,baz".toList)
      = ["foo,bar".toList, "baz".toList] := by
  refine ⟨?_, by decide⟩
  rw [kvu_get_arguments] at h
  cases hidx : List.findIdx? (fun c => c = ':') s with
  | none =>
    rw [hidx] at h
    by_cases hlen : s.length > 0
    · rw [if_pos hlen] at h
      exact mem_go_ne_nil s none [] t h
    · rw [if_neg hlen] at h
      simp at h
  | some i =>
    rw [hidx] at h
    exact mem_go_ne_nil (s.drop (i + 1)) (some ':') [] t h

theorem claim_C6_witness :
    ("a".toList ∈ kvu_get_arguments ("x:a".toList)) ∧
    ("a".toList ≠ ([] : Str) ∧
     kvu_get_arguments ("-x:foo\\,bar,baz".toList)
       = ["foo,bar".toList, "baz".toList]) :=
  ⟨by decide, claim_C6 ("x:a".toList) ("a".toList) (by decide)⟩

/-- C7 counterexample: the claim says the top-level separator between
the option prefix and the argument list is the first *unescaped* colon,
but `kvu_get_arguments` locates the colon with a plain `find` that
ignores escaping.  On the token `-x\:a:b` the code splits at the
escaped colon and returns `["a:b"]`, while the first-unescaped-colon
reading returns `["b"]`. -/
theorem claim_C7_counterexample :
    kvu_get_arguments ("-x\\:a:b".toList) = ["a:b".toList] ∧
    kvu_get_arguments_spec_colon ("-x\\:a:b".toList) = ["b".toList] ∧
    kvu_get_arguments ("-x\\:a:b".toList)
      ≠ kvu_get_arguments_spec_colon ("-x\\:a:b".toList) :=
  ⟨by decide, by decide, by decide⟩

/-- C7 (amended): the top-level separator between the option prefix and
the argument list is the first colon of the token, with backslash
escaping not considered when locating it; and for a token of the form
`-<p>:<r>` whose prefix part contains no colon, `kvu_get_argument_prefix`
returns exactly the substring strictly between the first `-` and the
first `:`, i.e. `p`, and the arguments are parsed from the region `r`
that follows that first colon. -/
theorem claim_C7_amended (p r : Str) (hp : (':' : Char) ∉ p) :
    kvu_get_argument_pfx ('-' :: p ++ ':' :: r) = p ∧
    kvu_get_arguments ('-' :: p ++ ':' :: r)
      = kvu_get_arguments_go r (some ':') [] := by
  have hnone : List.findIdx? (fun c => c = ':') ('-' :: p) = none := by
    rw [List.findIdx?_eq_none_iff]
    intro x hx
    simp only [decide_eq_false_iff_not]
    rcases List.mem_cons.mp hx with h1 | h2
    · subst h1
      decide
    · intro hc
      exact hp (hc ▸ h2)
  have hidxc : List.findIdx? (fun c => c = ':') ('-' :: p ++ ':' :: r)
      = some (p.length + 1) := by
    rw [show ('-' :: p ++ ':' :: r) = ('-' :: p) ++ ':' :: r from rfl,
      List.findIdx?_append, hnone]
    simp [List.findIdx?_cons]
  have hidxm : List.findIdx? (fun c => c = '-') ('-' :: p ++ ':' :: r)
      = some 0 := by
    simp [List.findIdx?_cons]
  constructor
  · rw [kvu_get_argument_pfx, hidxm, hidxc]
    simp only [Option.getD_some]
    rw [if_pos (by simp)]
    rw [show (('-' :: p ++ ':' :: r).drop 1) = p ++ ':' :: r from rfl]
    rw [show p ++ ':' :: r = (p ++ [':']) ++ r from by simp]
    rw [List.take_append_of_le_length (by simp)]
    rw [show p.length + 1 - 1 = p.length from by omega]
    simp
  · rw [kvu_get_arguments, hidxc]
    show kvu_get_arguments_go
        (List.drop (p.length + 1 + 1) ('-' :: p ++ ':' :: r)) (some ':') []
      = kvu_get_arguments_go r (some ':') []
    rw [show ('-' :: p ++ ':' :: r).drop (p.length + 1 + 1)
          = ((p ++ [':']) ++ r).drop (p ++ [':']).length from by simp]
    rw [List.drop_left]

theorem claim_C7_amended_witness :
    ((':' : Char) ∉ (['x'] : Str)) ∧
    (kvu_get_argument_pfx ('-' :: ['x'] ++ ':' :: "a,b".toList) = ['x'] ∧
     kvu_get_arguments ('-' :: ['x'] ++ ':' :: "a,b".toList)
       = kvu_get_arguments_go ("a,b".toList) (some ':') []) :=
  ⟨by decide, claim_C7_amended ['x'] ("a,b".toList) (by decide)⟩

/-- C8 counterexample: the claim promises `split(join(L)) = L` for every
list of non-empty tokens containing no unescaped separator characters,
but a token whose final character is a backslash escapes the separator
comma that the join inserts after it: for `L = ["a\", "b"]` (no
separator characters at all in either token) the joined option string
`x:a\,b` parses back as the single argument `["a,b"]`. -/
theorem claim_C8_counterexample :
    (([['a', '\\'], ['b']] : List Str).all
       (fun t => !t.isEmpty && !t.contains ',') = true) ∧
    kvu_get_arguments
        ('x' :: ':' :: kvu_vector_to_string [['a', '\\'], ['b']] [','])
      = [['a', ',', 'b']] ∧
    [['a', ',', 'b']] ≠ ([['a', '\\'], ['b']] : List Str) :=
  ⟨by decide, by decide, by decide⟩

/-- C8 (amended): the split/join round-trip
`kvu_get_arguments ("x:" ++ join(L)) = L` holds for every list `L` of
non-empty tokens that contain no comma and do not end in a backslash;
and the escape round-trip
`kvu_get_arguments ("x:" ++ join(map escape L)) = L` holds for every
list of non-empty arguments that contain no backslash (arguments may
contain commas). -/
theorem claim_C8_amended (L M : List Str)
    (hL : L.all
      (fun t => !t.isEmpty && !t.contains ',' && (t.getLast? != some '\\'))
      = true)
    (hM : M.all (fun t => !t.isEmpty && !t.contains '\\') = true) :
    kvu_get_arguments ('x' :: ':' :: kvu_vector_to_string L [',']) = L ∧
    kvu_get_arguments
        ('x' :: ':' :: kvu_vector_to_string (M.map escapeCommas) [','])
      = M := by
  constructor
  · rw [kvu_get_arguments_x_colon]
    refine roundtrip_plain L ?_ ':' (by decide)
    intro t ht
    have h1 := List.all_eq_true.mp hL t ht
    simp only [Bool.and_eq_true, bne_iff_ne, Bool.not_eq_true'] at h1
    refine ⟨by simpa using h1.1.1, by simpa using h1.1.2, h1.2⟩
  · rw [kvu_get_arguments_x_colon]
    refine roundtrip_escaped M ?_ ':' (by decide)
    intro t ht
    have h1 := List.all_eq_true.mp hM t ht
    simp only [Bool.and_eq_true, Bool.not_eq_true'] at h1
    exact ⟨by simpa using h1.1, by simpa using h1.2⟩

theorem claim_C8_amended_witness :
    (([['f', 'o', 'o'], ['b', 'a', 'r']] : List Str).all
       (fun t => !t.isEmpty && !t.contains ',' && (t.getLast? != some '\\'))
       = true) ∧
    (([['f', ','], ['b']] : List Str).all
       (fun t => !t.isEmpty && !t.contains '\\') = true) ∧
    (kvu_get_arguments
        ('x' :: ':' ::
          kvu_vector_to_string [['f', 'o', 'o'], ['b', 'a', 'r']] [','])
       = [['f', 'o', 'o'], ['b', 'a', 'r']] ∧
     kvu_get_arguments
        ('x' :: ':' ::
          kvu_vector_to_string ([['f', ','], ['b']].map escapeCommas) [','])
       = [['f', ','], ['b']]) :=
  ⟨by decide, by decide,
    claim_C8_amended [['f', 'o', 'o'], ['b', 'a', 'r']] [['f', ','], ['b']]
      (by decide) (by decide)⟩

/-- C10: for every input string that does not end with an unescaped
backslash, `kvu_string_to_tokens_quoted` terminates reading only
characters inside the string (the embedding returns `some` exactly on
such inputs); and every top-level backslash consumes the following
character, which is appended literally to the current token and never
acts as a token separator (the escape step holds for any following
character, any quote state and any accumulated token). -/
theorem claim_C10 (s : Str) (d : Char) (rest : Str) (q : Bool) (acc : Str)
    (h : endsWithUnescapedBackslash s = false) :
    (kvu_string_to_tokens_quoted s).isSome = true ∧
    kvu_string_to_tokens_quoted_go ('\\' :: d :: rest) q acc
      = kvu_string_to_tokens_quoted_go rest q (acc ++ [d]) := by
  constructor
  · rw [kvu_string_to_tokens_quoted, isSome_tokens_quoted_go, h]
    rfl
  · rw [tokens_go_cons, if_neg (by decide : ¬(('\\' : Char) = '"')),
      if_pos (rfl : ('\\' : Char) = '\\')]

theorem claim_C10_witness :
    endsWithUnescapedBackslash ("a\\ b".toList) = false ∧
    ((kvu_string_to_tokens_quoted ("a\\ b".toList)).isSome = true ∧
     kvu_string_to_tokens_quoted_go ('\\' :: ' ' :: "b".toList) false ['a']
       = kvu_string_to_tokens_quoted_go ("b".toList) false (['a'] ++ [' '])) :=
  ⟨by decide, claim_C10 ("a\\ b".toList) ' ' ("b".toList) false ['a'] (by decide)⟩

/-! ## eca-chainsetup.cpp: data model

The chainsetup state (class `ECA_CHAINSETUP` together with the parts of
`ECA_CHAINSETUP_impl` that the modelled member functions touch) is
embedded as a record.  Audio objects (`AUDIO_IO`) are embedded through
the behaviour the chainsetup code observes on them: their label, their
dynamic kind (`AUDIO_IO_DEVICE` subclass, `LOOP_DEVICE` subclass, the
`NULLFILE` class, or a plain file-like object), whether they are open,
what their `open()` call would do, and the sample rate / length they
report.  The front vectors `inputs`/`outputs` hold either the direct
object of the same index or a proxy wrapper around it
(`AUDIO_IO_BUFFERED_PROXY`); a slot is modelled by which of the two it
holds. -/

/-- Buffering modes (`Buffering_mode_t`). -/
inductive Bmode
  | bnone
  | auto
  | nonrt
  | rt
  | rtlowlatency
deriving DecidableEq, Repr

/-- One tuple of buffering parameters (`ECA_BUFFERING_PARAMETERS`):
buffersize, raised priority, sched priority, double buffering, double
buffer size, max buffers. -/
structure BmodeParams where
  buffersize : Int
  raised_priority : Bool
  sched_priority : Int
  double_buffering : Bool
  double_buffer_size : Int
  max_buffers : Bool
deriving DecidableEq, Repr

/-- The per-field user override record (`bmode_override_rep`); a `some`
field is a value the user has explicitly set and shadows the value of
the active parameter tuple (spec §4.5: tri-state set/unset). -/
structure BmodeOverride where
  buffersize : Option Int
  raised_priority : Option Bool
  sched_priority : Option Int
  double_buffering : Option Bool
  double_buffer_size : Option Int
  max_buffers : Option Bool
deriving DecidableEq, Repr

/-- The dynamic class of an audio object as the chainsetup code
observes it through `dynamic_cast`: a realtime device
(`AUDIO_IO_DEVICE`), a loop device (`LOOP_DEVICE`), the null file class
(`NULLFILE`), or any other (file-like) object. -/
inductive AObjKind
  | device
  | loopdev
  | nullfile
  | regular
deriving DecidableEq, Repr

/-- What an `open()` call on the object would do: succeed, throw
`AUDIO_IO::SETUP_ERROR`, or return without opening the object
(`is_open()` still false afterwards). -/
inductive OpenBehavior
  | succeeds
  | throwsSetup
  | failsSilently
deriving DecidableEq, Repr

/-- The io mode of an audio object (`AUDIO_IO::Io_mode`). -/
inductive IoMode
  | io_read
  | io_write
  | io_readwrite
deriving DecidableEq, Repr

/-- Modelled from the spec: the `AudioObject` contract (§4.1) for the
object behaviour the chainsetup code relies on — `open` may fail with a
`SetupError`, and an opened object reports its actual sample rate
(`srateOnOpen`, `none` meaning the nominal rate is kept) and a length.
The concrete `AUDIO_IO` subclasses are not part of the sources. -/
structure AObj where
  label : String
  kind : AObjKind
  is_open : Bool
  openB : OpenBehavior
  openErrMsg : String
  srate : Nat
  srateOnOpen : Option Nat
  len : Int
  iomode : IoMode
deriving DecidableEq, Repr

/-- A front-vector slot: the direct object of the same index, or an
`AUDIO_IO_BUFFERED_PROXY` wrapper around it (design note §9 of the
spec: `enum Slot (Direct | Proxied)`). -/
inductive FrontSlot
  | direct
  | proxied
deriving DecidableEq, Repr

/-- A chain, through the interface `eca-chainsetup.cpp` uses:
its name, the indices of the connected input and output (`-1` when
disconnected), and the size of its chain-operator list. -/
structure Chain where
  name : String
  connected_input : Int
  connected_output : Int
  cops : Nat
deriving DecidableEq, Repr

/-- A MIDI device, through the interface `ECA_CHAINSETUP::enable` uses:
label, open state, and whether `open()` would succeed. -/
structure MidiDev where
  label : String
  is_open : Bool
  openOk : Bool
deriving DecidableEq, Repr

/-- The chainsetup state (`ECA_CHAINSETUP` and the buffering-parameter
members of `ECA_CHAINSETUP_impl`).  `mlockall_ok` is the environment
fact of whether an `mlockall()` call would succeed. -/
structure CS where
  inputs : List FrontSlot
  inputs_direct : List AObj
  input_start_pos : List Int
  outputs : List FrontSlot
  outputs_direct : List AObj
  output_start_pos : List Int
  chains : List Chain
  selected_chainids : List String
  midi_devices : List MidiDev
  midi_server_enabled : Bool
  proxy_clients : Int
  is_enabled : Bool
  is_locked : Bool
  buffering_mode : Bmode
  active_buffering_mode : Bmode
  multitrack_mode : Bool
  multitrack_mode_override : Bool
  rtcaps : Bool
  bmode_nonrt : BmodeParams
  bmode_rt : BmodeParams
  bmode_rtlowlatency : BmodeParams
  bmode_active : BmodeParams
  bmode_override : BmodeOverride
  srate : Nat
  length_set : Bool
  len : Int
  default_srate : Nat
  memory_locked : Bool
  mlockall_ok : Bool
  ignore_xruns : Bool
deriving DecidableEq, Repr

/-- `ECA_CHAINSETUP::raised_priority` (eca-chainsetup.cpp:1926): the
override shadows the active tuple. -/
def CS.raised_priority (cs : CS) : Bool :=
  cs.bmode_override.raised_priority.getD cs.bmode_active.raised_priority

/-- `ECA_CHAINSETUP::double_buffering` (eca-chainsetup.cpp:1942). -/
def CS.double_buffering (cs : CS) : Bool :=
  cs.bmode_override.double_buffering.getD cs.bmode_active.double_buffering

/-- `ECA_CHAINSETUP::max_buffers` (eca-chainsetup.cpp:1956). -/
def CS.max_buffers (cs : CS) : Bool :=
  cs.bmode_override.max_buffers.getD cs.bmode_active.max_buffers

/-- `ECA_CHAINSETUP::buffersize` (eca-chainsetup.cpp:1918). -/
def CS.buffersize (cs : CS) : Int :=
  cs.bmode_override.buffersize.getD cs.bmode_active.buffersize

/-- `ECA_CHAINSETUP::number_of_realtime_inputs` (eca-chainsetup.cpp:1024):
the number of direct input objects that `dynamic_cast` to
`AUDIO_IO_DEVICE`. -/
def number_of_realtime_inputs (cs : CS) : Nat :=
  (cs.inputs_direct.filter (fun a => a.kind = AObjKind.device)).length

/-- `ECA_CHAINSETUP::number_of_realtime_outputs` (eca-chainsetup.cpp:1037). -/
def number_of_realtime_outputs (cs : CS) : Nat :=
  (cs.outputs_direct.filter (fun a => a.kind = AObjKind.device)).length

/-- `ECA_CHAINSETUP::number_of_non_realtime_inputs`
(eca-chainsetup.cpp:1050): `inputs.size() - number_of_realtime_inputs()`. -/
def number_of_non_realtime_inputs (cs : CS) : Int :=
  (cs.inputs.length : Int) - (number_of_realtime_inputs cs : Int)

/-- `ECA_CHAINSETUP::number_of_non_realtime_outputs`
(eca-chainsetup.cpp:1058). -/
def number_of_non_realtime_outputs (cs : CS) : Int :=
  (cs.outputs.length : Int) - (number_of_realtime_outputs cs : Int)

/-- `ECA_CHAINSETUP::number_of_chain_operators` (eca-chainsetup.cpp:974). -/
def number_of_chain_operators (cs : CS) : Nat :=
  (cs.chains.map Chain.cops).sum

/-- `ECA_CHAINSETUP::has_realtime_objects` (eca-chainsetup.cpp:989). -/
def has_realtime_objects (cs : CS) : Bool :=
  number_of_realtime_inputs cs > 0 ∨ number_of_realtime_outputs cs > 0

/-- `ECA_CHAINSETUP::has_nonrealtime_objects` (eca-chainsetup.cpp:1002). -/
def has_nonrealtime_objects (cs : CS) : Bool :=
  ((cs.inputs_direct.length + cs.outputs_direct.length : Int)
    > (number_of_realtime_inputs cs : Int) + (number_of_realtime_outputs cs : Int))

/-- `ECA_CHAINSETUP::select_active_buffering_mode`, block 1
(eca-chainsetup.cpp:389-391): a `none` buffering mode initialises the
active mode to `auto`. -/
def select_abm_init (cs : CS) : CS :=
  if cs.buffering_mode = Bmode.bnone then
    {cs with active_buffering_mode := Bmode.auto}
  else cs

/-- `ECA_CHAINSETUP::select_active_buffering_mode`, multitrack condition
(eca-chainsetup.cpp:393-401). -/
def multitrack_decision (cs : CS) : Prop :=
  ¬(cs.multitrack_mode_override = true ∧ cs.multitrack_mode ≠ true) ∧
    ((cs.multitrack_mode_override = true ∧ cs.multitrack_mode = true) ∨
     (number_of_realtime_inputs cs > 0 ∧
      number_of_realtime_outputs cs > 0 ∧
      number_of_non_realtime_inputs cs > 0 ∧
      number_of_non_realtime_outputs cs > 0 ∧
      cs.chains.length > 1))

instance multitrack_decision_dec (cs : CS) : Decidable (multitrack_decision cs) := by
  unfold multitrack_decision
  infer_instance

/-- `ECA_CHAINSETUP::select_active_buffering_mode`, block 2
(eca-chainsetup.cpp:393-406): the multitrack flag is set to `true` when
the condition holds and to `false` otherwise. -/
def select_abm_multitrack (cs : CS) : CS :=
  if multitrack_decision cs then {cs with multitrack_mode := true}
  else {cs with multitrack_mode := false}

/-- `ECA_CHAINSETUP::select_active_buffering_mode`, block 3
(eca-chainsetup.cpp:408-451): in `auto` mode the active buffering mode
is chosen from the topology (cases 1-5 of the source); an explicitly
selected mode is copied as is.  In case 2 (realtime objects but no
rt-scheduling privileges) `toggle_raised_priority(false)` stores a
raised-priority override (eca-chainsetup.cpp:1889-1892). -/
def select_abm_mode (cs : CS) : CS :=
  if cs.buffering_mode = Bmode.auto then
    if has_realtime_objects cs = true then
      if cs.multitrack_mode = true then
        {cs with active_buffering_mode := Bmode.rt}
      else if cs.rtcaps ≠ true then
        {cs with
          bmode_override :=
            {cs.bmode_override with raised_priority := some false},
          active_buffering_mode := Bmode.rt}
      else if number_of_chain_operators cs = 0 ∧
              (number_of_realtime_inputs cs = 0 ∨
               number_of_realtime_outputs cs = 0) then
        {cs with active_buffering_mode := Bmode.rt}
      else
        {cs with active_buffering_mode := Bmode.rtlowlatency}
    else
      {cs with active_buffering_mode := Bmode.nonrt}
  else
    {cs with active_buffering_mode := cs.buffering_mode}

/-- `ECA_CHAINSETUP::select_active_buffering_mode`, block 4
(eca-chainsetup.cpp:453-474): copy the parameter tuple of the selected
mode into `bmode_active_rep`. -/
def select_abm_params (cs : CS) : CS :=
  match cs.active_buffering_mode with
  | Bmode.nonrt => {cs with bmode_active := cs.bmode_nonrt}
  | Bmode.rt => {cs with bmode_active := cs.bmode_rt}
  | Bmode.rtlowlatency => {cs with bmode_active := cs.bmode_rtlowlatency}
  | _ => cs

/-- `ECA_CHAINSETUP::select_active_buffering_mode`
(eca-chainsetup.cpp:387-479), as the composition of its four blocks. -/
def select_active_buffering_mode (cs : CS) : CS :=
  select_abm_params (select_abm_mode (select_abm_multitrack (select_abm_init cs)))

/-! Field-preservation facts for the four blocks. -/

theorem select_abm_init_fields (cs : CS) :
    (select_abm_init cs).inputs = cs.inputs ∧
    (select_abm_init cs).inputs_direct = cs.inputs_direct ∧
    (select_abm_init cs).outputs = cs.outputs ∧
    (select_abm_init cs).outputs_direct = cs.outputs_direct ∧
    (select_abm_init cs).chains = cs.chains ∧
    (select_abm_init cs).multitrack_mode = cs.multitrack_mode ∧
    (select_abm_init cs).multitrack_mode_override = cs.multitrack_mode_override ∧
    (select_abm_init cs).rtcaps = cs.rtcaps ∧
    (select_abm_init cs).buffering_mode = cs.buffering_mode ∧
    (select_abm_init cs).is_enabled = cs.is_enabled ∧
    (select_abm_init cs).bmode_override = cs.bmode_override ∧
    (select_abm_init cs).midi_devices = cs.midi_devices ∧
    (select_abm_init cs).midi_server_enabled = cs.midi_server_enabled ∧
    (select_abm_init cs).proxy_clients = cs.proxy_clients := by
  unfold select_abm_init
  split <;> exact ⟨rfl, rfl, rfl, rfl, rfl, rfl, rfl, rfl, rfl, rfl, rfl, rfl, rfl, rfl⟩

theorem select_abm_multitrack_fields (cs : CS) :
    (select_abm_multitrack cs).inputs = cs.inputs ∧
    (select_abm_multitrack cs).inputs_direct = cs.inputs_direct ∧
    (select_abm_multitrack cs).outputs = cs.outputs ∧
    (select_abm_multitrack cs).outputs_direct = cs.outputs_direct ∧
    (select_abm_multitrack cs).chains = cs.chains ∧
    (select_abm_multitrack cs).rtcaps = cs.rtcaps ∧
    (select_abm_multitrack cs).buffering_mode = cs.buffering_mode ∧
    (select_abm_multitrack cs).is_enabled = cs.is_enabled ∧
    (select_abm_multitrack cs).bmode_override = cs.bmode_override ∧
    (select_abm_multitrack cs).midi_devices = cs.midi_devices ∧
    (select_abm_multitrack cs).midi_server_enabled = cs.midi_server_enabled ∧
    (select_abm_multitrack cs).proxy_clients = cs.proxy_clients := by
  unfold select_abm_multitrack
  split <;> exact ⟨rfl, rfl, rfl, rfl, rfl, rfl, rfl, rfl, rfl, rfl, rfl, rfl⟩

theorem select_abm_multitrack_mt (cs : CS) :
    (select_abm_multitrack cs).multitrack_mode
      = decide (multitrack_decision cs) := by
  unfold select_abm_multitrack
  by_cases h : multitrack_decision cs
  · rw [if_pos h]
    simp [h]
  · rw [if_neg h]
    simp [h]

theorem select_abm_mode_fields (cs : CS) :
    (select_abm_mode cs).inputs = cs.inputs ∧
    (select_abm_mode cs).inputs_direct = cs.inputs_direct ∧
    (select_abm_mode cs).outputs = cs.outputs ∧
    (select_abm_mode cs).outputs_direct = cs.outputs_direct ∧
    (select_abm_mode cs).chains = cs.chains ∧
    (select_abm_mode cs).multitrack_mode = cs.multitrack_mode ∧
    (select_abm_mode cs).rtcaps = cs.rtcaps ∧
    (select_abm_mode cs).is_enabled = cs.is_enabled ∧
    (select_abm_mode cs).midi_devices = cs.midi_devices ∧
    (select_abm_mode cs).midi_server_enabled = cs.midi_server_enabled ∧
    (select_abm_mode cs).proxy_clients = cs.proxy_clients := by
  unfold select_abm_mode
  split
  · split
    · split
      · exact ⟨rfl, rfl, rfl, rfl, rfl, rfl, rfl, rfl, rfl, rfl, rfl⟩
      · split
        · exact ⟨rfl, rfl, rfl, rfl, rfl, rfl, rfl, rfl, rfl, rfl, rfl⟩
        · split
          · exact ⟨rfl, rfl, rfl, rfl, rfl, rfl, rfl, rfl, rfl, rfl, rfl⟩
          · exact ⟨rfl, rfl, rfl, rfl, rfl, rfl, rfl, rfl, rfl, rfl, rfl⟩
    · exact ⟨rfl, rfl, rfl, rfl, rfl, rfl, rfl, rfl, rfl, rfl, rfl⟩
  · exact ⟨rfl, rfl, rfl, rfl, rfl, rfl, rfl, rfl, rfl, rfl, rfl⟩

theorem select_abm_params_fields (cs : CS) :
    (select_abm_params cs).inputs = cs.inputs ∧
    (select_abm_params cs).inputs_direct = cs.inputs_direct ∧
    (select_abm_params cs).outputs = cs.outputs ∧
    (select_abm_params cs).outputs_direct = cs.outputs_direct ∧
    (select_abm_params cs).chains = cs.chains ∧
    (select_abm_params cs).multitrack_mode = cs.multitrack_mode ∧
    (select_abm_params cs).rtcaps = cs.rtcaps ∧
    (select_abm_params cs).is_enabled = cs.is_enabled ∧
    (select_abm_params cs).bmode_override = cs.bmode_override ∧
    (select_abm_params cs).active_buffering_mode = cs.active_buffering_mode ∧
    (select_abm_params cs).midi_devices = cs.midi_devices ∧
    (select_abm_params cs).midi_server_enabled = cs.midi_server_enabled ∧
    (select_abm_params cs).proxy_clients = cs.proxy_clients := by
  unfold select_abm_params
  split <;> exact ⟨rfl, rfl, rfl, rfl, rfl, rfl, rfl, rfl, rfl, rfl, rfl, rfl, rfl⟩

theorem number_of_realtime_inputs_congr {a b : CS}
    (h : a.inputs_direct = b.inputs_direct) :
    number_of_realtime_inputs a = number_of_realtime_inputs b := by
  unfold number_of_realtime_inputs
  rw [h]

theorem number_of_realtime_outputs_congr {a b : CS}
    (h : a.outputs_direct = b.outputs_direct) :
    number_of_realtime_outputs a = number_of_realtime_outputs b := by
  unfold number_of_realtime_outputs
  rw [h]

theorem number_of_chain_operators_congr {a b : CS}
    (h : a.chains = b.chains) :
    number_of_chain_operators a = number_of_chain_operators b := by
  unfold number_of_chain_operators
  rw [h]

theorem has_realtime_objects_congr {a b : CS}
    (hi : a.inputs_direct = b.inputs_direct)
    (ho : a.outputs_direct = b.outputs_direct) :
    has_realtime_objects a = has_realtime_objects b := by
  unfold has_realtime_objects
  rw [number_of_realtime_inputs_congr hi, number_of_realtime_outputs_congr ho]

/-- The topology side of the multitrack condition
(eca-chainsetup.cpp:397-401), named for the claim statements. -/
def multitrack_topology (cs : CS) : Prop :=
  number_of_realtime_inputs cs > 0 ∧
  number_of_realtime_outputs cs > 0 ∧
  number_of_non_realtime_inputs cs > 0 ∧
  number_of_non_realtime_outputs cs > 0 ∧
  cs.chains.length > 1

instance multitrack_topology_dec (cs : CS) : Decidable (multitrack_topology cs) := by
  unfold multitrack_topology
  infer_instance

theorem multitrack_topology_congr {a b : CS}
    (hi : a.inputs = b.inputs) (hid : a.inputs_direct = b.inputs_direct)
    (ho : a.outputs = b.outputs) (hod : a.outputs_direct = b.outputs_direct)
    (hc : a.chains = b.chains) :
    multitrack_topology a ↔ multitrack_topology b := by
  unfold multitrack_topology number_of_non_realtime_inputs
    number_of_non_realtime_outputs
  rw [number_of_realtime_inputs_congr hid, number_of_realtime_outputs_congr hod,
    hi, ho, hc]

theorem multitrack_decision_eq (cs : CS) :
    decide (multitrack_decision cs)
      = (if cs.multitrack_mode_override = true then cs.multitrack_mode
         else decide (multitrack_topology cs)) := by
  unfold multitrack_decision multitrack_topology
    number_of_non_realtime_inputs number_of_non_realtime_outputs
  by_cases ho : cs.multitrack_mode_override = true
  · by_cases hm : cs.multitrack_mode = true
    · simp [ho, hm]
    · simp [ho, hm]
  · simp [ho]

theorem multitrack_decision_congr {a b : CS}
    (hmo : a.multitrack_mode_override = b.multitrack_mode_override)
    (hm : a.multitrack_mode = b.multitrack_mode)
    (hi : a.inputs = b.inputs) (hid : a.inputs_direct = b.inputs_direct)
    (ho : a.outputs = b.outputs) (hod : a.outputs_direct = b.outputs_direct)
    (hc : a.chains = b.chains) :
    multitrack_decision a ↔ multitrack_decision b := by
  unfold multitrack_decision number_of_non_realtime_inputs
    number_of_non_realtime_outputs
  rw [number_of_realtime_inputs_congr hid, number_of_realtime_outputs_congr hod,
    hi, ho, hc, hmo, hm]

theorem select_multitrack_eq (cs : CS) :
    (select_active_buffering_mode cs).multitrack_mode
      = (if cs.multitrack_mode_override = true then cs.multitrack_mode
         else decide (multitrack_topology cs)) := by
  unfold select_active_buffering_mode
  rw [(select_abm_params_fields _).2.2.2.2.2.1,
    (select_abm_mode_fields _).2.2.2.2.2.1,
    select_abm_multitrack_mt]
  rw [decide_eq_decide.mpr (multitrack_decision_congr
    (select_abm_init_fields cs).2.2.2.2.2.2.1
    (select_abm_init_fields cs).2.2.2.2.2.1
    (select_abm_init_fields cs).1
    (select_abm_init_fields cs).2.1
    (select_abm_init_fields cs).2.2.1
    (select_abm_init_fields cs).2.2.2.1
    (select_abm_init_fields cs).2.2.2.2.1)]
  exact multitrack_decision_eq cs

/-- Follows the spec's words (§4.5, selection algorithm cases 2-6): the
documented decision table for `auto` mode, over the topology counts,
the rt-scheduling privilege flag and the (already determined)
multitrack flag. -/
def bmode_selection_table (rti rto cops : Nat) (rtcaps mt : Bool) : Bmode :=
  if rti = 0 ∧ rto = 0 then Bmode.nonrt
  else if mt = true then Bmode.rt
  else if rtcaps = false then Bmode.rt
  else if cops = 0 ∧ (rti = 0 ∨ rto = 0) then Bmode.rt
  else Bmode.rtlowlatency

/-- C1: for a chainsetup in `auto` buffering mode, the active buffering
mode selected by `select_active_buffering_mode` follows the documented
decision table — no realtime objects gives `nonrt`; otherwise
multitrack mode gives `rt`; otherwise missing rt-scheduling privileges
give `rt` with raised priority turned off; otherwise zero chain
operators together with zero realtime inputs or zero realtime outputs
gives `rt`; otherwise `rtlowlatency`. -/
theorem claim_C1 (cs : CS) (h : cs.buffering_mode = Bmode.auto) :
    (select_active_buffering_mode cs).active_buffering_mode
      = bmode_selection_table (number_of_realtime_inputs cs)
          (number_of_realtime_outputs cs) (number_of_chain_operators cs)
          cs.rtcaps (select_active_buffering_mode cs).multitrack_mode ∧
    (has_realtime_objects cs = true →
     (select_active_buffering_mode cs).multitrack_mode = false →
     cs.rtcaps = false →
     (select_active_buffering_mode cs).active_buffering_mode = Bmode.rt ∧
     CS.raised_priority (select_active_buffering_mode cs) = false) := by
  have hy := select_abm_multitrack_fields (select_abm_init cs)
  have hx := select_abm_init_fields cs
  set y := select_abm_multitrack (select_abm_init cs) with hydef
  have hby : y.buffering_mode = Bmode.auto := by
    rw [hy.2.2.2.2.2.2.1, hx.2.2.2.2.2.2.2.2.1, h]
  have hbyn : ¬(y.buffering_mode = Bmode.bnone) := by
    rw [hby]
    intro hc
    cases hc
  have hrti : number_of_realtime_inputs y = number_of_realtime_inputs cs :=
    number_of_realtime_inputs_congr (by rw [hy.2.1, hx.2.1])
  have hrto : number_of_realtime_outputs y = number_of_realtime_outputs cs :=
    number_of_realtime_outputs_congr (by rw [hy.2.2.2.1, hx.2.2.2.1])
  have hcops : number_of_chain_operators y = number_of_chain_operators cs :=
    number_of_chain_operators_congr (by rw [hy.2.2.2.2.1, hx.2.2.2.2.1])
  have hhas : has_realtime_objects y = has_realtime_objects cs :=
    has_realtime_objects_congr (by rw [hy.2.1, hx.2.1]) (by rw [hy.2.2.2.1, hx.2.2.2.1])
  have hrtc : y.rtcaps = cs.rtcaps := by rw [hy.2.2.2.2.2.1, hx.2.2.2.2.2.2.2.1]
  have hsel : select_active_buffering_mode cs = select_abm_params (select_abm_mode y) := by
    rw [hydef]
    rfl
  have hmt : (select_active_buffering_mode cs).multitrack_mode = y.multitrack_mode := by
    rw [hsel, (select_abm_params_fields _).2.2.2.2.2.1,
      (select_abm_mode_fields _).2.2.2.2.2.1]
  have hactive : (select_active_buffering_mode cs).active_buffering_mode
      = (select_abm_mode y).active_buffering_mode := by
    rw [hsel, (select_abm_params_fields _).2.2.2.2.2.2.2.2.2.1]
  have hov : (select_active_buffering_mode cs).bmode_override
      = (select_abm_mode y).bmode_override := by
    rw [hsel, (select_abm_params_fields _).2.2.2.2.2.2.2.2.1]
  by_cases hrt : has_realtime_objects cs = true
  · have hrt0 : ¬(number_of_realtime_inputs cs = 0 ∧
        number_of_realtime_outputs cs = 0) := by
      unfold has_realtime_objects at hrt
      rcases of_decide_eq_true hrt with h1 | h1 <;> omega
    by_cases hmty : y.multitrack_mode = true
    · have haeq : (select_abm_mode y).active_buffering_mode = Bmode.rt := by
        unfold select_abm_mode
        rw [if_pos hby, if_pos (by rw [hhas]; exact hrt), if_pos hmty]
      constructor
      · rw [hactive, haeq, bmode_selection_table, if_neg hrt0, if_pos (hmt.trans hmty)]
      · intro _ hmf _
        rw [hmt, hmty] at hmf
        cases hmf
    · by_cases hcap : y.rtcaps ≠ true
      · have hmode : select_abm_mode y
            = {y with
                bmode_override :=
                  {y.bmode_override with raised_priority := some false},
                active_buffering_mode := Bmode.rt} := by
          unfold select_abm_mode
          rw [if_pos hby, if_pos (by rw [hhas]; exact hrt), if_neg hmty, if_pos hcap]
        have hcapf : cs.rtcaps = false := by
          rw [← hrtc]
          revert hcap
          cases y.rtcaps <;> simp
        constructor
        · rw [hactive, hmode, bmode_selection_table, if_neg hrt0,
            if_neg (by rw [hmt]; revert hmty; cases y.multitrack_mode <;> simp),
            if_pos hcapf]
        · intro _ _ _
          refine ⟨by rw [hactive, hmode], ?_⟩
          rw [CS.raised_priority, hov, hmode]
          simp
      · have hcapt : cs.rtcaps = true := by
          rw [← hrtc]
          revert hcap
          cases y.rtcaps <;> simp
        have hmtf : (select_active_buffering_mode cs).multitrack_mode = false := by
          rw [hmt]
          revert hmty
          cases y.multitrack_mode <;> simp
        by_cases hc3 : number_of_chain_operators cs = 0 ∧
            (number_of_realtime_inputs cs = 0 ∨ number_of_realtime_outputs cs = 0)
        · have haeq : (select_abm_mode y).active_buffering_mode = Bmode.rt := by
            unfold select_abm_mode
            rw [if_pos hby, if_pos (by rw [hhas]; exact hrt), if_neg hmty,
              if_neg hcap, if_pos (by rw [hcops, hrti, hrto]; exact hc3)]
          constructor
          · rw [hactive, haeq, bmode_selection_table, if_neg hrt0,
              if_neg (by rw [hmtf]; simp), if_neg (by rw [hcapt]; simp),
              if_pos hc3]
          · intro _ _ hcf
            rw [hcapt] at hcf
            cases hcf
        · have haeq : (select_abm_mode y).active_buffering_mode
              = Bmode.rtlowlatency := by
            unfold select_abm_mode
            rw [if_pos hby, if_pos (by rw [hhas]; exact hrt), if_neg hmty,
              if_neg hcap, if_neg (by rw [hcops, hrti, hrto]; exact hc3)]
          constructor
          · rw [hactive, haeq, bmode_selection_table, if_neg hrt0,
              if_neg (by rw [hmtf]; simp), if_neg (by rw [hcapt]; simp),
              if_neg hc3]
          · intro _ _ hcf
            rw [hcapt] at hcf
            cases hcf
  · have haeq : (select_abm_mode y).active_buffering_mode = Bmode.nonrt := by
      unfold select_abm_mode
      rw [if_pos hby, if_neg (by rw [hhas]; exact hrt)]
    have hrt0 : number_of_realtime_inputs cs = 0 ∧
        number_of_realtime_outputs cs = 0 := by
      unfold has_realtime_objects at hrt
      constructor <;> by_contra hh <;> exact hrt (decide_eq_true (by omega))
    constructor
    · rw [hactive, haeq, bmode_selection_table, if_pos hrt0]
    · intro hcontra
      rw [hcontra] at hrt
      cases hrt rfl

/-- Default buffering parameters for mode `nonrt`
(`default_bmode_nonrt_const`, eca-chainsetup.cpp:76). -/
def default_bmode_nonrt : BmodeParams :=
  { buffersize := 1024, raised_priority := true, sched_priority := 50,
    double_buffering := true, double_buffer_size := 100000, max_buffers := true }

/-- Default buffering parameters for mode `rt`
(`default_bmode_rt_const`, eca-chainsetup.cpp:77). -/
def default_bmode_rt : BmodeParams :=
  { buffersize := 1024, raised_priority := true, sched_priority := 50,
    double_buffering := true, double_buffer_size := 100000, max_buffers := true }

/-- Default buffering parameters for mode `rtlowlatency`
(`default_bmode_rtlowlatency_const`, eca-chainsetup.cpp:78). -/
def default_bmode_rtll : BmodeParams :=
  { buffersize := 256, raised_priority := true, sched_priority := 50,
    double_buffering := true, double_buffer_size := 100000, max_buffers := false }

/-- An unset override record. -/
def no_bmode_override : BmodeOverride :=
  { buffersize := none, raised_priority := none, sched_priority := none,
    double_buffering := none, double_buffer_size := none, max_buffers := none }

/-- A file-like (non-realtime) audio object reporting rate `sr` once
opened. -/
def mkFile (lab : String) (sr : Nat) : AObj :=
  { label := lab, kind := AObjKind.regular, is_open := false,
    openB := OpenBehavior.succeeds, openErrMsg := "", srate := 44100,
    srateOnOpen := some sr, len := 0, iomode := IoMode.io_read }

/-- A realtime device object. -/
def mkDev (lab : String) : AObj :=
  { label := lab, kind := AObjKind.device, is_open := false,
    openB := OpenBehavior.succeeds, openErrMsg := "", srate := 44100,
    srateOnOpen := none, len := 0, iomode := IoMode.io_readwrite }

/-- A fresh chain. -/
def mkChain (nm : String) : Chain :=
  { name := nm, connected_input := -1, connected_output := -1, cops := 0 }

/-- The freshly constructed chainsetup state: the values
`ECA_CHAINSETUP::set_defaults` (eca-chainsetup.cpp:246-310) assigns,
with empty object vectors and the hard-coded buffering defaults. -/
def csEmpty : CS :=
  { inputs := [], inputs_direct := [], input_start_pos := [],
    outputs := [], outputs_direct := [], output_start_pos := [],
    chains := [], selected_chainids := [], midi_devices := [],
    midi_server_enabled := false, proxy_clients := 0,
    is_enabled := false, is_locked := false,
    buffering_mode := Bmode.auto, active_buffering_mode := Bmode.bnone,
    multitrack_mode := false, multitrack_mode_override := false,
    rtcaps := false,
    bmode_nonrt := default_bmode_nonrt, bmode_rt := default_bmode_rt,
    bmode_rtlowlatency := default_bmode_rtll,
    bmode_active := default_bmode_nonrt,
    bmode_override := no_bmode_override,
    srate := 44100, length_set := false, len := 0, default_srate := 44100,
    memory_locked := false, mlockall_ok := true, ignore_xruns := true }

/-- A chainsetup with one realtime input, one file output and one
chain; used as the concrete instance for the buffering-mode claims. -/
def csC1 : CS :=
  {csEmpty with
    inputs := [FrontSlot.direct],
    inputs_direct := [mkDev "rt-in"],
    outputs := [FrontSlot.proxied],
    outputs_direct := [mkFile "out.wav" 44100],
    chains := [mkChain "default"]}

theorem claim_C1_witness :
    csC1.buffering_mode = Bmode.auto ∧
    ((select_active_buffering_mode csC1).active_buffering_mode
       = bmode_selection_table (number_of_realtime_inputs csC1)
           (number_of_realtime_outputs csC1) (number_of_chain_operators csC1)
           csC1.rtcaps (select_active_buffering_mode csC1).multitrack_mode ∧
     (has_realtime_objects csC1 = true →
      (select_active_buffering_mode csC1).multitrack_mode = false →
      csC1.rtcaps = false →
      (select_active_buffering_mode csC1).active_buffering_mode = Bmode.rt ∧
      CS.raised_priority (select_active_buffering_mode csC1) = false)) :=
  ⟨rfl, claim_C1 csC1 rfl⟩

/-- A chainsetup whose topology satisfies the multitrack condition
(one realtime and one non-realtime object on each side, two chains)
while the user override is set with the stored multitrack flag false. -/
def csC2 : CS :=
  {csEmpty with
    multitrack_mode_override := true,
    multitrack_mode := false,
    inputs := [FrontSlot.direct, FrontSlot.proxied],
    inputs_direct := [mkDev "rt-in", mkFile "in.wav" 44100],
    outputs := [FrontSlot.direct, FrontSlot.proxied],
    outputs_direct := [mkDev "rt-out", mkFile "out.wav" 44100],
    chains := [mkChain "a", mkChain "b"]}

/-- C2 counterexample: the claim says multitrack mode is enabled
whenever the user override is true or the topology condition holds.  In
`csC2` the override flag is true and the topology condition holds, yet
the code leaves multitrack mode disabled, because when the override
flag is set the result is the stored multitrack value (here false) —
an explicit `-z:nomultitrack` defeats the topology rule. -/
theorem claim_C2_counterexample :
    csC2.multitrack_mode_override = true ∧
    multitrack_topology csC2 ∧
    (select_active_buffering_mode csC2).multitrack_mode = false :=
  ⟨rfl, by decide, by decide⟩

/-- C2 (amended): during buffering-mode selection the multitrack flag
is set to the stored multitrack value when the user override flag is
set, and otherwise to the topology condition (at least one realtime
input, one realtime output, one non-realtime input, one non-realtime
output, and more than one chain); in all remaining cases it is false. -/
theorem claim_C2_amended (cs : CS) :
    (select_active_buffering_mode cs).multitrack_mode
      = (if cs.multitrack_mode_override = true then cs.multitrack_mode
         else decide (multitrack_topology cs)) :=
  select_multitrack_eq cs

/-! ## eca-chainsetup.cpp: enable() -/

/-- An error inside `enable` before the catch blocks translate it:
either an `AUDIO_IO::SETUP_ERROR` thrown by an object's `open()`, or an
`ECA_ERROR` thrown by the chainsetup code itself. -/
inductive EnErr
  | setup (msg : String)
  | eca (sec msg : String)
deriving DecidableEq, Repr

/-- The `ECA_ERROR` that `enable` lets escape to the caller. -/
structure EcaError where
  errsec : String
  message : String
deriving DecidableEq, Repr

/-- The catch blocks of `ECA_CHAINSETUP::enable`
(eca-chainsetup.cpp:1670-1681): an `AUDIO_IO::SETUP_ERROR` is wrapped
into `ECA_ERROR("ECA-CHAINSETUP", "Enabling chainsetup: " + msg)`; any
other exception is rethrown unchanged. -/
def enable_catch : EnErr → EcaError
  | EnErr.setup m => { errsec := "ECA-CHAINSETUP",
                       message := "Enabling chainsetup: " ++ m }
  | EnErr.eca s m => { errsec := s, message := m }

/-- `ECA_CHAINSETUP::enable_audio_object_helper`
(eca-chainsetup.cpp:1576-1589) on the direct object behind a front
slot: sets the buffersize and device toggles (not part of the modelled
object state), opens the object if it is not open (the open may throw
`SETUP_ERROR` or fail silently), and on an open object re-seeks to the
current position (a no-op on the modelled state). -/
def enable_audio_object_helper (a : AObj) : Except String AObj :=
  if a.is_open = false then
    match a.openB with
    | OpenBehavior.succeeds =>
      Except.ok {a with is_open := true, srate := a.srateOnOpen.getD a.srate}
    | OpenBehavior.throwsSetup => Except.error a.openErrMsg
    | OpenBehavior.failsSilently => Except.ok a
  else Except.ok a

/-- The generic error `enable` throws when an `open()` returns without
opening the object (eca-chainsetup.cpp:1618). -/
def open_failed_err : EnErr :=
  EnErr.eca "ECA-CHAINSETUP" "Open failed without explicit exception!"

/-- The input-opening loop of `enable` (eca-chainsetup.cpp:1615-1620),
acting on the direct objects behind the front slots (the proxy wrapper
delegates `open`/`is_open` to the wrapped direct object — modelled from
the spec, §4.6: "the direct object is what gets opened/closed").  On an
exception the remaining objects are left untouched. -/
def enable_open_vector : List AObj → List AObj × Option EnErr
  | [] => ([], none)
  | a :: rest =>
    match enable_audio_object_helper a with
    | Except.error e => (a :: rest, some (EnErr.setup e))
    | Except.ok a1 =>
      if a1.is_open ≠ true then (a1 :: rest, some open_failed_err)
      else
        let r := enable_open_vector rest
        (a1 :: r.1, r.2)

/-- `ECA_CHAINSETUP::check_object_samplerate`
(eca-chainsetup.cpp:1560-1574): an `ECA_ERROR` naming the object's rate
and the engine rate when they differ. -/
def check_object_samplerate (a : AObj) (srate : Nat) : Option EnErr :=
  if a.srate ≠ srate then
    some (EnErr.eca "ECA-CHAINSETUP"
      ("All audio objects must have a common" ++
       " sampling rate; sampling rate of audio object '" ++
       a.label ++
       "' differs from engine rate (" ++
       toString a.srate ++
       " <-> " ++
       toString srate ++
       "); unable to continue."))
  else none

/-- The rate check of `enable` step 3 (eca-chainsetup.cpp:1625-1632)
for the inputs after the first. -/
def check_rates_from : List AObj → Nat → Option EnErr
  | [], _ => none
  | a :: rest, srate =>
    match check_object_samplerate a srate with
    | some e => some e
    | none => check_rates_from rest srate

/-- `ECA_CHAINSETUP::set_samples_per_second`
(eca-chainsetup.cpp:1755-1777): propagates the rate to the chainsetup
and to every input and output object. -/
def set_samples_per_second (cs : CS) (v : Nat) : CS :=
  {cs with
    srate := v,
    inputs_direct := cs.inputs_direct.map (fun a => {a with srate := v}),
    outputs_direct := cs.outputs_direct.map (fun a => {a with srate := v})}

/-- The output loop of `enable` step 5 (eca-chainsetup.cpp:1638-1644):
open each output and check it against the common input rate. -/
def enable_open_outputs : List AObj → Nat → List AObj × Option EnErr
  | [], _ => ([], none)
  | a :: rest, srate =>
    match enable_audio_object_helper a with
    | Except.error e => (a :: rest, some (EnErr.setup e))
    | Except.ok a1 =>
      if a1.is_open ≠ true then (a1 :: rest, some open_failed_err)
      else
        match check_object_samplerate a1 srate with
        | some e => (a1 :: rest, some e)
        | none =>
          let r := enable_open_outputs rest srate
          (a1 :: r.1, r.2)

/-- The MIDI loop of `enable` step 7 (eca-chainsetup.cpp:1651-1662). -/
def enable_open_midis : List MidiDev → List MidiDev × Option EnErr
  | [] => ([], none)
  | m :: rest =>
    if m.is_open ≠ true then
      let m1 := if m.openOk then {m with is_open := true} else m
      if m1.is_open ≠ true then
        (m1 :: rest,
         some (EnErr.eca "ECA-CHAINSETUP"
           ("Unable to open MIDI-device: " ++ m.label ++ ".")))
      else
        let r := enable_open_midis rest
        (m1 :: r.1, r.2)
    else
      let r := enable_open_midis rest
      (m :: r.1, r.2)

/-- `ECA_CHAINSETUP::calculate_processing_length`
(eca-chainsetup.cpp:1737-1750). -/
def calculate_processing_length (cs : CS) : CS :=
  let maxi := cs.inputs_direct.foldl (fun acc a => if a.len > acc then a.len else acc) 0
  if cs.length_set ≠ true then
    if maxi > 0 then {cs with len := maxi} else cs
  else cs

/-- `ECA_CHAINSETUP::lock_all_memory` (eca-chainsetup.cpp:584) and
`unlock_all_memory` (eca-chainsetup.cpp:602); the success of the
`mlockall` syscall is the environment flag `mlockall_ok`. -/
def lock_all_memory (cs : CS) : CS :=
  if cs.mlockall_ok then {cs with memory_locked := true} else cs

def unlock_all_memory (cs : CS) : CS :=
  {cs with memory_locked := false}

/-- `ECA_CHAINSETUP::add_audio_object_helper` (eca-chainsetup.cpp:1202):
an object that is neither a realtime device nor a loop device is
wrapped in an `AUDIO_IO_BUFFERED_PROXY` (the slot becomes `proxied` and
a proxy client is created); otherwise the slot holds the object
directly. -/
def add_audio_object_helper_slot (a : AObj) : FrontSlot × Bool :=
  if a.kind ≠ AObjKind.device ∧ a.kind ≠ AObjKind.loopdev then
    (FrontSlot.proxied, true)
  else (FrontSlot.direct, false)

/-- `ECA_CHAINSETUP::switch_to_direct_mode` (eca-chainsetup.cpp:532):
every proxied slot is replaced by its direct object and the proxy
client count drops accordingly. -/
def switch_to_direct_mode (cs : CS) : CS :=
  {cs with
    inputs := cs.inputs.map (fun _ => FrontSlot.direct),
    outputs := cs.outputs.map (fun _ => FrontSlot.direct),
    proxy_clients := cs.proxy_clients
      - ((cs.inputs.filter (fun s => s = FrontSlot.proxied)).length : Int)
      - ((cs.outputs.filter (fun s => s = FrontSlot.proxied)).length : Int)}

/-- `ECA_CHAINSETUP::switch_to_proxy_mode` (eca-chainsetup.cpp:559):
every slot is re-assigned from `add_audio_object_helper` on its direct
object. -/
def switch_to_proxy_mode (cs : CS) : CS :=
  {cs with
    inputs := cs.inputs_direct.map (fun a => (add_audio_object_helper_slot a).1),
    outputs := cs.outputs_direct.map (fun a => (add_audio_object_helper_slot a).1),
    proxy_clients := cs.proxy_clients
      + ((cs.inputs_direct.filter
           (fun a => (add_audio_object_helper_slot a).2)).length : Int)
      + ((cs.outputs_direct.filter
           (fun a => (add_audio_object_helper_slot a).2)).length : Int)}

/-- `ECA_CHAINSETUP::enable_active_buffering_mode`
(eca-chainsetup.cpp:486-530): memory locking, then the proxy/direct
switch.  The proxy-server buffer defaults (step on line 516) concern
the proxy server object, which is modelled separately. -/
def enable_active_buffering_mode (cs : CS) : CS :=
  let cs1 := if CS.raised_priority cs = true then lock_all_memory cs
             else unlock_all_memory cs
  if CS.double_buffering cs1 = true then
    if has_realtime_objects cs1 ≠ true then
      let cs2 := switch_to_direct_mode cs1
      {cs2 with bmode_active := {cs2.bmode_active with double_buffering := false}}
    else if has_nonrealtime_objects cs1 ≠ true then
      let cs2 := switch_to_direct_mode cs1
      {cs2 with bmode_active := {cs2.bmode_active with double_buffering := false}}
    else if cs1.proxy_clients = 0 then switch_to_proxy_mode cs1
    else cs1
  else
    if cs1.proxy_clients > 0 then switch_to_direct_mode cs1 else cs1

/-- Steps 6-8 of `ECA_CHAINSETUP::enable` (eca-chainsetup.cpp:1646-1665):
the MIDI server, the MIDI devices, and the processing length. -/
def enable_steps_midi (cs5 : CS) : CS × Option EnErr :=
  let cs6 := if cs5.midi_server_enabled ≠ true ∧ cs5.midi_devices.length > 0 then
               {cs5 with midi_server_enabled := true}
             else cs5
  let rmidi := enable_open_midis cs6.midi_devices
  let cs7 := {cs6 with midi_devices := rmidi.1}
  match rmidi.2 with
  | some e => (cs7, some e)
  | none => (calculate_processing_length cs7, none)

/-- Step 5 of `ECA_CHAINSETUP::enable` (eca-chainsetup.cpp:1637-1644):
open the outputs and check them against the common rate. -/
def enable_steps_out (cs4 : CS) (sr : Nat) : CS × Option EnErr :=
  let rout := enable_open_outputs cs4.outputs_direct sr
  let cs5 := {cs4 with outputs_direct := rout.1}
  match rout.2 with
  | some e => (cs5, some e)
  | none => enable_steps_midi cs5

/-- Steps 3-4 of `ECA_CHAINSETUP::enable` (eca-chainsetup.cpp:1622-1635):
the common-rate check against the first input and the rate
propagation. -/
def enable_steps_rate (cs3 : CS) : CS × Option EnErr :=
  let first_srate := match cs3.inputs_direct with
                     | [] => 0
                     | a :: _ => a.srate
  let rate_err := match cs3.inputs_direct with
                  | [] => none
                  | _ :: rest => check_rates_from rest first_srate
  match rate_err with
  | some e => (cs3, some e)
  | none => enable_steps_out (set_samples_per_second cs3 first_srate) first_srate

/-- Steps 2-8 of `ECA_CHAINSETUP::enable` on the state reached after
buffering-mode selection: open the inputs, then continue with the rate
check and the remaining steps; an error stops the sequence. -/
def enable_steps (cs2 : CS) : CS × Option EnErr :=
  let rin := enable_open_vector cs2.inputs_direct
  let cs3 := {cs2 with inputs_direct := rin.1}
  match rin.2 with
  | some e => (cs3, some e)
  | none => enable_steps_rate cs3

/-- `ECA_CHAINSETUP::enable` (eca-chainsetup.cpp:1601-1686): on an
already-enabled chainsetup only `is_enabled_rep = true` runs again;
otherwise buffering selection and the numbered steps run, and
`is_enabled_rep` becomes true only when no step threw.  The result
pairs the state (the partially-updated state when an exception was
thrown) with the surfaced `ECA_ERROR`, translated by the catch
blocks. -/
def enable (cs : CS) : CS × Option EcaError :=
  if cs.is_enabled = true then ({cs with is_enabled := true}, none)
  else
    let r := enable_steps
      (enable_active_buffering_mode (select_active_buffering_mode cs))
    (if r.2.isSome then r.1 else {r.1 with is_enabled := true},
     r.2.map enable_catch)

theorem select_preserves (cs : CS) :
    (select_active_buffering_mode cs).inputs_direct = cs.inputs_direct ∧
    (select_active_buffering_mode cs).outputs_direct = cs.outputs_direct ∧
    (select_active_buffering_mode cs).is_enabled = cs.is_enabled ∧
    (select_active_buffering_mode cs).midi_devices = cs.midi_devices ∧
    (select_active_buffering_mode cs).midi_server_enabled = cs.midi_server_enabled := by
  unfold select_active_buffering_mode
  refine ⟨?_, ?_, ?_, ?_, ?_⟩
  · rw [(select_abm_params_fields _).2.1, (select_abm_mode_fields _).2.1,
      (select_abm_multitrack_fields _).2.1, (select_abm_init_fields _).2.1]
  · rw [(select_abm_params_fields _).2.2.2.1, (select_abm_mode_fields _).2.2.2.1,
      (select_abm_multitrack_fields _).2.2.2.1, (select_abm_init_fields _).2.2.2.1]
  · rw [(select_abm_params_fields _).2.2.2.2.2.2.2.1,
      (select_abm_mode_fields _).2.2.2.2.2.2.2.1,
      (select_abm_multitrack_fields _).2.2.2.2.2.2.2.1,
      (select_abm_init_fields _).2.2.2.2.2.2.2.2.2.1]
  · rw [(select_abm_params_fields _).2.2.2.2.2.2.2.2.2.2.1,
      (select_abm_mode_fields _).2.2.2.2.2.2.2.2.1,
      (select_abm_multitrack_fields _).2.2.2.2.2.2.2.2.2.1,
      (select_abm_init_fields _).2.2.2.2.2.2.2.2.2.2.2.1]
  · rw [(select_abm_params_fields _).2.2.2.2.2.2.2.2.2.2.2.1,
      (select_abm_mode_fields _).2.2.2.2.2.2.2.2.2.1,
      (select_abm_multitrack_fields _).2.2.2.2.2.2.2.2.2.2.1,
      (select_abm_init_fields _).2.2.2.2.2.2.2.2.2.2.2.2.1]

theorem eabm_preserves (cs : CS) :
    (enable_active_buffering_mode cs).inputs_direct = cs.inputs_direct ∧
    (enable_active_buffering_mode cs).outputs_direct = cs.outputs_direct ∧
    (enable_active_buffering_mode cs).is_enabled = cs.is_enabled ∧
    (enable_active_buffering_mode cs).midi_devices = cs.midi_devices ∧
    (enable_active_buffering_mode cs).midi_server_enabled = cs.midi_server_enabled := by
  unfold enable_active_buffering_mode lock_all_memory unlock_all_memory
    switch_to_direct_mode switch_to_proxy_mode
  dsimp only
  repeat' split
  all_goals exact ⟨rfl, rfl, rfl, rfl, rfl⟩

/-- Whether the `open()` attempt inside `enable_audio_object_helper`
leaves the object open: it was already open, or its `open()` succeeds. -/
def willOpenOk (a : AObj) : Bool :=
  a.is_open || a.openB = OpenBehavior.succeeds

/-- The state of an object after `enable_audio_object_helper` when the
open attempt worked. -/
def open_obj (a : AObj) : AObj :=
  if a.is_open then a
  else {a with is_open := true, srate := a.srateOnOpen.getD a.srate}

theorem enable_helper_ok {a : AObj} (h : willOpenOk a = true) :
    enable_audio_object_helper a = Except.ok (open_obj a) ∧
    (open_obj a).is_open = true := by
  unfold willOpenOk at h
  unfold enable_audio_object_helper open_obj
  by_cases ho : a.is_open = true
  · simp [ho]
  · have ho2 : a.is_open = false := by
      revert ho
      cases a.is_open <;> simp
    have hb : a.openB = OpenBehavior.succeeds := by
      rcases Bool.or_eq_true_iff.mp h with h1 | h1
      · exact absurd h1 ho
      · exact of_decide_eq_true h1
    simp [ho2, hb]

theorem enable_open_vector_ok : ∀ (l : List AObj),
    (∀ a ∈ l, willOpenOk a = true) →
    enable_open_vector l = (l.map open_obj, none) := by
  intro l
  induction l with
  | nil =>
    intro _
    rfl
  | cons a rest ih =>
    intro h
    have ha := enable_helper_ok (h a (List.mem_cons_self a rest))
    rw [enable_open_vector, ha.1]
    dsimp only
    rw [if_neg (by rw [ha.2]; simp)]
    rw [ih (fun x hx => h x (List.mem_cons_of_mem a hx))]
    rfl

theorem enable_open_vector_fail : ∀ (l : List AObj),
    (∃ a ∈ l, willOpenOk a = false) →
    (enable_open_vector l).2.isSome = true := by
  intro l
  induction l with
  | nil =>
    intro h
    obtain ⟨a, ha, -⟩ := h
    simp at ha
  | cons a rest ih =>
    intro h
    by_cases ha : willOpenOk a = true
    · have hh := enable_helper_ok ha
      rw [enable_open_vector, hh.1]
      dsimp only
      rw [if_neg (by rw [hh.2]; simp)]
      obtain ⟨b, hb, hbf⟩ := h
      rcases List.mem_cons.mp hb with h1 | h1
      · subst h1
        rw [ha] at hbf
        cases hbf
      · exact ih ⟨b, h1, hbf⟩
    · have ha' : willOpenOk a = false := by
        revert ha
        cases willOpenOk a <;> simp
      have ho : a.is_open = false := by
        unfold willOpenOk at ha'
        rcases Bool.or_eq_false_iff.mp ha' with ⟨h1, -⟩
        exact h1
      have hb : ¬(a.openB = OpenBehavior.succeeds) := by
        unfold willOpenOk at ha'
        rcases Bool.or_eq_false_iff.mp ha' with ⟨-, h2⟩
        exact of_decide_eq_false h2
      rw [enable_open_vector]
      unfold enable_audio_object_helper
      rw [ho, if_pos rfl]
      cases hob : a.openB with
      | succeeds => exact absurd hob hb
      | throwsSetup => rfl
      | failsSilently =>
        dsimp only
        rw [if_pos (by rw [ho]; simp)]
        rfl

theorem check_rates_from_spec : ∀ (l : List AObj) (sr : Nat),
    (∃ b ∈ l, b.srate ≠ sr) →
    ∃ b msg, b ∈ l ∧ b.srate ≠ sr ∧
      check_rates_from l sr = some (EnErr.eca "ECA-CHAINSETUP" msg) ∧
      (toString b.srate).toList <:+: msg.toList ∧
      (toString sr).toList <:+: msg.toList := by
  intro l
  induction l with
  | nil =>
    intro sr h
    obtain ⟨b, hb, -⟩ := h
    simp at hb
  | cons a rest ih =>
    intro sr h
    by_cases ha : a.srate ≠ sr
    · refine ⟨a,
        "All audio objects must have a common" ++
          " sampling rate; sampling rate of audio object '" ++
          a.label ++ "' differs from engine rate (" ++
          toString a.srate ++ " <-> " ++ toString sr ++
          "); unable to continue.",
        List.mem_cons_self a rest, ha, ?_, ?_, ?_⟩
      · rw [check_rates_from]
        unfold check_object_samplerate
        rw [if_pos ha]
      · refine ⟨("All audio objects must have a common" ++
            " sampling rate; sampling rate of audio object '" ++
            a.label ++ "' differs from engine rate (").toList,
          (" <-> " ++ toString sr ++ "); unable to continue.").toList, ?_⟩
        simp [String.toList, String.data_append]
      · refine ⟨("All audio objects must have a common" ++
            " sampling rate; sampling rate of audio object '" ++
            a.label ++ "' differs from engine rate (" ++
            toString a.srate ++ " <-> ").toList,
          ("); unable to continue." : String).toList, ?_⟩
        simp [String.toList, String.data_append]
    · have ha2 : a.srate = sr := by
        revert ha
        by_cases h2 : a.srate = sr <;> simp [h2]
      obtain ⟨b, hb, hbs⟩ := h
      have hbr : b ∈ rest := by
        rcases List.mem_cons.mp hb with h1 | h1
        · subst h1
          exact absurd ha2 hbs
        · exact h1
      obtain ⟨b2, msg, hb2, hbs2, heq, hi1, hi2⟩ := ih sr ⟨b, hbr, hbs⟩
      refine ⟨b2, msg, List.mem_cons_of_mem a hb2, hbs2, ?_, hi1, hi2⟩
      rw [check_rates_from]
      unfold check_object_samplerate
      rw [if_neg (by simpa using ha2)]
      exact heq

theorem calculate_processing_length_pres (cs : CS) :
    (calculate_processing_length cs).is_enabled = cs.is_enabled := by
  unfold calculate_processing_length
  dsimp only
  repeat' split
  all_goals rfl

theorem enable_steps_midi_is_enabled (cs5 : CS) :
    ((enable_steps_midi cs5).1).is_enabled = cs5.is_enabled := by
  unfold enable_steps_midi
  dsimp only
  repeat' split
  all_goals simp [calculate_processing_length_pres]

theorem enable_steps_out_is_enabled (cs4 : CS) (sr : Nat) :
    ((enable_steps_out cs4 sr).1).is_enabled = cs4.is_enabled := by
  unfold enable_steps_out
  dsimp only
  split
  · rfl
  · rw [enable_steps_midi_is_enabled]

theorem enable_steps_rate_is_enabled (cs3 : CS) :
    ((enable_steps_rate cs3).1).is_enabled = cs3.is_enabled := by
  unfold enable_steps_rate
  dsimp only
  split
  · rfl
  · rw [enable_steps_out_is_enabled]
    rfl

theorem enable_steps_is_enabled (cs2 : CS) :
    ((enable_steps cs2).1).is_enabled = cs2.is_enabled := by
  unfold enable_steps
  dsimp only
  split
  · rfl
  · rw [enable_steps_rate_is_enabled]

theorem enable_of_not_enabled (cs : CS) (h0 : cs.is_enabled = false) :
    enable cs =
      ((if (enable_steps
            (enable_active_buffering_mode
              (select_active_buffering_mode cs))).2.isSome then
          (enable_steps
            (enable_active_buffering_mode
              (select_active_buffering_mode cs))).1
        else
          {(enable_steps
            (enable_active_buffering_mode
              (select_active_buffering_mode cs))).1 with is_enabled := true}),
       (enable_steps
         (enable_active_buffering_mode
           (select_active_buffering_mode cs))).2.map enable_catch) := by
  unfold enable
  rw [if_neg (by rw [h0]; simp)]

theorem enable_err_state (cs : CS) (h0 : cs.is_enabled = false)
    (herr : (enable_steps
      (enable_active_buffering_mode
        (select_active_buffering_mode cs))).2.isSome = true) :
    (enable cs).2.isSome = true ∧ (enable cs).1.is_enabled = false := by
  rw [enable_of_not_enabled cs h0]
  constructor
  · simpa using herr
  · rw [if_pos herr, enable_steps_is_enabled,
      (eabm_preserves _).2.2.1, (select_preserves cs).2.2.1, h0]

theorem enable_steps_err_in (cs2 : CS)
    (h : (enable_open_vector cs2.inputs_direct).2.isSome = true) :
    (enable_steps cs2).2.isSome = true := by
  unfold enable_steps
  dsimp only
  rcases hv : (enable_open_vector cs2.inputs_direct).2 with _ | e
  · rw [hv] at h
    simp at h
  · rfl

theorem enable_open_outputs_fail : ∀ (l : List AObj) (sr : Nat),
    (∃ a ∈ l, willOpenOk a = false) →
    (enable_open_outputs l sr).2.isSome = true := by
  intro l
  induction l with
  | nil =>
    intro sr h
    obtain ⟨a, ha, -⟩ := h
    simp at ha
  | cons a rest ih =>
    intro sr h
    by_cases ha : willOpenOk a = true
    · have hh := enable_helper_ok ha
      rw [enable_open_outputs, hh.1]
      dsimp only
      rw [if_neg (by rw [hh.2]; simp)]
      rcases hc : check_object_samplerate (open_obj a) sr with _ | e
      · obtain ⟨b, hb, hbf⟩ := h
        rcases List.mem_cons.mp hb with h1 | h1
        · subst h1
          rw [ha] at hbf
          cases hbf
        · exact ih sr ⟨b, h1, hbf⟩
      · rfl
    · have ha2 : willOpenOk a = false := by
        revert ha
        cases willOpenOk a <;> simp
      have ho : a.is_open = false := by
        unfold willOpenOk at ha2
        exact (Bool.or_eq_false_iff.mp ha2).1
      have hb : ¬(a.openB = OpenBehavior.succeeds) :=
        of_decide_eq_false (Bool.or_eq_false_iff.mp ha2).2
      rw [enable_open_outputs]
      unfold enable_audio_object_helper
      rw [ho, if_pos rfl]
      cases hob : a.openB with
      | succeeds => exact absurd hob hb
      | throwsSetup => rfl
      | failsSilently =>
        dsimp only
        rw [if_pos (by rw [ho]; simp)]
        rfl

theorem enable_steps_none_in {cs2 : CS} {ins : List AObj}
    (hopen : enable_open_vector cs2.inputs_direct = (ins, none)) :
    enable_steps cs2 = enable_steps_rate {cs2 with inputs_direct := ins} := by
  unfold enable_steps
  dsimp only
  rw [hopen]

theorem enable_steps_rate_err {cs3 : CS} {a : AObj} {rest : List AObj} {e : EnErr}
    (hin : cs3.inputs_direct = a :: rest)
    (hc : check_rates_from rest a.srate = some e) :
    enable_steps_rate cs3 = (cs3, some e) := by
  unfold enable_steps_rate
  rw [hin]
  dsimp only
  rw [hc]

theorem enable_steps_rate_none {cs3 : CS} {a : AObj} {rest : List AObj}
    (hin : cs3.inputs_direct = a :: rest)
    (hc : check_rates_from rest a.srate = none) :
    enable_steps_rate cs3
      = enable_steps_out (set_samples_per_second cs3 a.srate) a.srate := by
  unfold enable_steps_rate
  rw [hin]
  dsimp only
  rw [hc]

theorem enable_steps_rate_nil {cs3 : CS} (hin : cs3.inputs_direct = []) :
    enable_steps_rate cs3
      = enable_steps_out (set_samples_per_second cs3 0) 0 := by
  unfold enable_steps_rate
  rw [hin]

theorem enable_steps_out_err_prop (cs4 : CS) (sr : Nat)
    (h : (enable_open_outputs cs4.outputs_direct sr).2.isSome = true) :
    (enable_steps_out cs4 sr).2.isSome = true := by
  unfold enable_steps_out
  dsimp only
  rcases hv : (enable_open_outputs cs4.outputs_direct sr).2 with _ | e
  · rw [hv] at h
    simp at h
  · rfl

/-! ## Claims C3 and C4 -/

/-- C3: when a chainsetup is enabled and some opened input reports a
sample rate different from the rate of the first opened input, `enable`
fails with an `ECA-CHAINSETUP` error whose message names both differing
sample rates, and the chainsetup's enabled flag remains false. -/
theorem claim_C3 (cs : CS) (a0 : AObj) (rest : List AObj)
    (h0 : cs.is_enabled = false)
    (h1 : cs.inputs_direct = a0 :: rest)
    (h2 : (a0 :: rest).all willOpenOk = true)
    (h3 : rest.any (fun b => (open_obj b).srate != (open_obj a0).srate) = true) :
    ∃ e, (enable cs).2 = some e ∧
      (enable cs).1.is_enabled = false ∧
      e.errsec = "ECA-CHAINSETUP" ∧
      (toString (open_obj a0).srate).toList <:+: e.message.toList ∧
      ∃ b, b ∈ rest ∧ (open_obj b).srate ≠ (open_obj a0).srate ∧
        (toString (open_obj b).srate).toList <:+: e.message.toList := by
  have hin2 : (enable_active_buffering_mode
      (select_active_buffering_mode cs)).inputs_direct = a0 :: rest := by
    rw [(eabm_preserves _).1, (select_preserves cs).1, h1]
  have hany : ∃ b ∈ rest.map open_obj, b.srate ≠ (open_obj a0).srate := by
    obtain ⟨b, hbm, hb⟩ := List.any_eq_true.mp h3
    exact ⟨open_obj b, List.mem_map_of_mem open_obj hbm, bne_iff_ne.mp hb⟩
  obtain ⟨b2, msg, hmem2, hne2, hceq, hi1, hi2⟩ :=
    check_rates_from_spec (rest.map open_obj) (open_obj a0).srate hany
  have hopen : enable_open_vector (enable_active_buffering_mode
      (select_active_buffering_mode cs)).inputs_direct
      = (open_obj a0 :: rest.map open_obj, none) := by
    rw [hin2]
    rw [enable_open_vector_ok (a0 :: rest) (List.all_eq_true.mp h2)]
    rfl
  have hsteps : enable_steps (enable_active_buffering_mode
      (select_active_buffering_mode cs))
      = ({enable_active_buffering_mode (select_active_buffering_mode cs) with
           inputs_direct := open_obj a0 :: rest.map open_obj},
         some (EnErr.eca "ECA-CHAINSETUP" msg)) := by
    rw [enable_steps_none_in hopen]
    exact enable_steps_rate_err rfl hceq
  have herr : (enable_steps (enable_active_buffering_mode
      (select_active_buffering_mode cs))).2.isSome = true := by
    rw [hsteps]
    rfl
  have hstate := enable_err_state cs h0 herr
  refine ⟨{ errsec := "ECA-CHAINSETUP", message := msg }, ?_, hstate.2, rfl, hi2, ?_⟩
  · rw [enable_of_not_enabled cs h0]
    dsimp only
    rw [hsteps]
    rfl
  · obtain ⟨b, hbm, hbeq⟩ := List.mem_map.mp hmem2
    refine ⟨b, hbm, ?_, ?_⟩
    · rw [hbeq]
      exact hne2
    · rw [hbeq]
      exact hi1

/-- A chainsetup with two file inputs whose opened rates differ
(44100 and 22050): the concrete instance for C3. -/
def csC3 : CS :=
  {csEmpty with
    inputs := [FrontSlot.proxied, FrontSlot.proxied],
    inputs_direct := [mkFile "a.wav" 44100, mkFile "b.wav" 22050],
    outputs := [FrontSlot.proxied],
    outputs_direct := [mkFile "out.wav" 44100],
    chains := [mkChain "default"]}

theorem claim_C3_witness :
    csC3.is_enabled = false ∧
    csC3.inputs_direct = mkFile "a.wav" 44100 :: [mkFile "b.wav" 22050] ∧
    ([mkFile "a.wav" 44100, mkFile "b.wav" 22050].all willOpenOk = true) ∧
    ([mkFile "b.wav" 22050].any
      (fun b => (open_obj b).srate != (open_obj (mkFile "a.wav" 44100)).srate)
      = true) ∧
    (∃ e, (enable csC3).2 = some e ∧
      (enable csC3).1.is_enabled = false ∧
      e.errsec = "ECA-CHAINSETUP" ∧
      (toString (open_obj (mkFile "a.wav" 44100)).srate).toList
        <:+: e.message.toList ∧
      ∃ b, b ∈ [mkFile "b.wav" 22050] ∧
        (open_obj b).srate ≠ (open_obj (mkFile "a.wav" 44100)).srate ∧
        (toString (open_obj b).srate).toList <:+: e.message.toList) :=
  ⟨rfl, rfl, by decide, by decide,
   claim_C3 csC3 (mkFile "a.wav" 44100) [mkFile "b.wav" 22050]
     rfl rfl (by decide) (by decide)⟩

/-- C4: when opening any input or output object fails during `enable`,
the transition aborts — an error is surfaced to the caller and the
enabled flag remains false. -/
theorem claim_C4 (cs : CS)
    (h0 : cs.is_enabled = false)
    (hfail : cs.inputs_direct.any (fun a => !willOpenOk a) = true ∨
             cs.outputs_direct.any (fun a => !willOpenOk a) = true) :
    (enable cs).2.isSome = true ∧ (enable cs).1.is_enabled = false := by
  have hin2 : (enable_active_buffering_mode
      (select_active_buffering_mode cs)).inputs_direct = cs.inputs_direct := by
    rw [(eabm_preserves _).1, (select_preserves cs).1]
  have hout2 : (enable_active_buffering_mode
      (select_active_buffering_mode cs)).outputs_direct = cs.outputs_direct := by
    rw [(eabm_preserves _).2.1, (select_preserves cs).2.1]
  apply enable_err_state cs h0
  by_cases hinok : ∀ a ∈ cs.inputs_direct, willOpenOk a = true
  · have hof : ∃ a ∈ cs.outputs_direct, willOpenOk a = false := by
      rcases hfail with hf | hf
      · obtain ⟨a, ham, haf⟩ := List.any_eq_true.mp hf
        rw [Bool.not_eq_true'] at haf
        rw [hinok a ham] at haf
        cases haf
      · obtain ⟨a, ham, haf⟩ := List.any_eq_true.mp hf
        rw [Bool.not_eq_true'] at haf
        exact ⟨a, ham, haf⟩
    have hopen : enable_open_vector (enable_active_buffering_mode
        (select_active_buffering_mode cs)).inputs_direct
        = (cs.inputs_direct.map open_obj, none) := by
      rw [hin2]
      exact enable_open_vector_ok cs.inputs_direct hinok
    rw [enable_steps_none_in hopen]
    have houts : ∀ (v : Nat),
        (set_samples_per_second
          {enable_active_buffering_mode (select_active_buffering_mode cs) with
            inputs_direct := cs.inputs_direct.map open_obj} v).outputs_direct
        = cs.outputs_direct.map (fun a => {a with srate := v}) := by
      intro v
      unfold set_samples_per_second
      dsimp only
      rw [hout2]
    have hfailmap : ∀ (v : Nat),
        ∃ a ∈ cs.outputs_direct.map (fun a => {a with srate := v}),
          willOpenOk a = false := by
      intro v
      obtain ⟨a, ham, haf⟩ := hof
      refine ⟨{a with srate := v}, List.mem_map_of_mem _ ham, ?_⟩
      unfold willOpenOk at haf ⊢
      exact haf
    rcases (show cs.inputs_direct.map open_obj = [] ∨
        ∃ a t, cs.inputs_direct.map open_obj = a :: t by
      cases cs.inputs_direct.map open_obj with
      | nil => exact Or.inl rfl
      | cons x xs => exact Or.inr ⟨x, xs, rfl⟩) with hil | ⟨a2, rest2, hil⟩
    · rw [enable_steps_rate_nil (by
        show cs.inputs_direct.map open_obj = []
        exact hil)]
      apply enable_steps_out_err_prop
      rw [houts 0]
      exact enable_open_outputs_fail _ 0 (hfailmap 0)
    · have hin3 : ({enable_active_buffering_mode
          (select_active_buffering_mode cs) with
          inputs_direct := cs.inputs_direct.map open_obj}).inputs_direct
          = a2 :: rest2 := by
        show cs.inputs_direct.map open_obj = a2 :: rest2
        exact hil
      rcases hrc : check_rates_from rest2 a2.srate with _ | e
      · rw [enable_steps_rate_none hin3 hrc]
        apply enable_steps_out_err_prop
        rw [houts a2.srate]
        exact enable_open_outputs_fail _ _ (hfailmap a2.srate)
      · rw [enable_steps_rate_err hin3 hrc]
        rfl
  · have hif : ∃ a ∈ cs.inputs_direct, willOpenOk a = false := by
      push_neg at hinok
      obtain ⟨a, ham, haf⟩ := hinok
      refine ⟨a, ham, ?_⟩
      revert haf
      cases willOpenOk a <;> simp
    apply enable_steps_err_in
    rw [hin2]
    exact enable_open_vector_fail cs.inputs_direct hif

/-- A chainsetup whose single input fails to open: the concrete
instance for C4. -/
def csC4 : CS :=
  {csEmpty with
    inputs := [FrontSlot.proxied],
    inputs_direct := [{mkFile "bad.wav" 44100 with
      openB := OpenBehavior.throwsSetup,
      openErrMsg := "AUDIOIO-WAVE: Can't open file for reading."}],
    outputs := [FrontSlot.proxied],
    outputs_direct := [mkFile "out.wav" 44100],
    chains := [mkChain "default"]}

theorem claim_C4_witness :
    csC4.is_enabled = false ∧
    (csC4.inputs_direct.any (fun a => !willOpenOk a) = true ∨
     csC4.outputs_direct.any (fun a => !willOpenOk a) = true) ∧
    ((enable csC4).2.isSome = true ∧ (enable csC4).1.is_enabled = false) :=
  ⟨rfl, Or.inl (by decide), claim_C4 csC4 rfl (Or.inl (by decide))⟩

/-! ## eca-chainsetup.cpp: adding and removing audio objects -/

/-- The fresh `NULLFILE("null")` object that
`remove_audio_input`/`remove_audio_output` put into the vacated slot
(eca-chainsetup.cpp:1346, 1381). -/
def nullfileObj : AObj :=
  { label := "null", kind := AObjKind.nullfile, is_open := false,
    openB := OpenBehavior.succeeds, openErrMsg := "", srate := 44100,
    srateOnOpen := none, len := 0, iomode := IoMode.io_readwrite }

/-- `ECA_CHAINSETUP::attach_input_to_selected_chains`
(eca-chainsetup.cpp:1470-1500) for the object at input index `c`:
every chain connected to `c` is disconnected, then every selected
chain is connected to `c`. -/
def attach_input_to_selected_chains (chains : List Chain)
    (selected : List String) (c : Nat) : List Chain :=
  chains.map (fun ch =>
    let ch1 := if ch.connected_input = (c : Int) then
                 {ch with connected_input := -1}
               else ch
    if selected.contains ch1.name then {ch1 with connected_input := (c : Int)}
    else ch1)

/-- `ECA_CHAINSETUP::attach_output_to_selected_chains`
(eca-chainsetup.cpp:1507-1536). -/
def attach_output_to_selected_chains (chains : List Chain)
    (selected : List String) (c : Nat) : List Chain :=
  chains.map (fun ch =>
    let ch1 := if ch.connected_output = (c : Int) then
                 {ch with connected_output := -1}
               else ch
    if selected.contains ch1.name then {ch1 with connected_output := (c : Int)}
    else ch1)

/-- `ECA_CHAINSETUP::add_input` (eca-chainsetup.cpp:1247-1271): the
object is set to read mode and the default format, pushed (through
`add_audio_object_helper`, possibly proxy-wrapped) onto the parallel
input vectors together with a zero start position, and attached to the
selected chains at the new index.  Manager registration
(`register_audio_object_to_manager`) touches only the manager objects,
which are outside the modelled state. -/
def add_input (cs : CS) (aio : AObj) : CS :=
  let aio1 := {aio with iomode := IoMode.io_read, srate := cs.default_srate}
  let slot := add_audio_object_helper_slot aio1
  {cs with
    inputs := cs.inputs ++ [slot.1],
    inputs_direct := cs.inputs_direct ++ [aio1],
    input_start_pos := cs.input_start_pos ++ [0],
    proxy_clients := cs.proxy_clients + (if slot.2 then 1 else 0),
    chains := attach_input_to_selected_chains cs.chains cs.selected_chainids
      cs.inputs.length}

/-- `ECA_CHAINSETUP::add_output` (eca-chainsetup.cpp:1290-1318). -/
def add_output (cs : CS) (aio : AObj) (truncate : Bool) : CS :=
  let aio1 := {aio with
    iomode := if truncate then IoMode.io_write else IoMode.io_readwrite,
    srate := cs.default_srate}
  let slot := add_audio_object_helper_slot aio1
  {cs with
    outputs := cs.outputs ++ [slot.1],
    outputs_direct := cs.outputs_direct ++ [aio1],
    output_start_pos := cs.output_start_pos ++ [0],
    proxy_clients := cs.proxy_clients + (if slot.2 then 1 else 0),
    chains := attach_output_to_selected_chains cs.chains cs.selected_chainids
      cs.outputs.length}

/-- Whether the (front) object at index `i` of the parallel vectors has
label `lab`: the index is in range and the direct object at it matches
(the proxy wrapper delegates `label()` to the wrapped object). -/
def labelMatchAt (directs : List AObj) (lab : String) (i : Int) : Bool :=
  decide (0 ≤ i) &&
    (match directs.get? i.toNat with
     | some a => decide (a.label = lab)
     | none => false)

/-- `ECA_CHAINSETUP::remove_audio_input` (eca-chainsetup.cpp:1325-1353):
for every index whose front object's label (the proxy wrapper reports
the wrapped object's label — modelled from the spec's decorator note,
§9) matches, the proxy wrapper (if any) is deleted, chains connected to
that index are disconnected, and both the front and the direct slot are
replaced by a fresh `NULLFILE`.  The per-index loop is expressed over
the zipped parallel vectors. -/
def remove_audio_input (cs : CS) (lab : String) : CS :=
  {cs with
    inputs := (cs.inputs.zip cs.inputs_direct).map
      (fun p => if p.2.label = lab then FrontSlot.direct else p.1),
    inputs_direct := cs.inputs_direct.map
      (fun a => if a.label = lab then nullfileObj else a),
    chains := cs.chains.map (fun ch =>
      if labelMatchAt cs.inputs_direct lab ch.connected_input = true then
        {ch with connected_input := -1}
      else ch),
    proxy_clients := cs.proxy_clients -
      (((cs.inputs.zip cs.inputs_direct).filter
        (fun p => p.1 = FrontSlot.proxied ∧ p.2.label = lab)).length : Int)}

/-- `ECA_CHAINSETUP::remove_audio_output` (eca-chainsetup.cpp:1360-1388). -/
def remove_audio_output (cs : CS) (lab : String) : CS :=
  {cs with
    outputs := (cs.outputs.zip cs.outputs_direct).map
      (fun p => if p.2.label = lab then FrontSlot.direct else p.1),
    outputs_direct := cs.outputs_direct.map
      (fun a => if a.label = lab then nullfileObj else a),
    chains := cs.chains.map (fun ch =>
      if labelMatchAt cs.outputs_direct lab ch.connected_output = true then
        {ch with connected_output := -1}
      else ch),
    proxy_clients := cs.proxy_clients -
      (((cs.outputs.zip cs.outputs_direct).filter
        (fun p => p.1 = FrontSlot.proxied ∧ p.2.label = lab)).length : Int)}

/-- Element `n` of the front vector after the per-index replacement loop
of `remove_audio_input`/`remove_audio_output`, expressed over the
zipped parallel vectors. -/
theorem zipmap_front_get (lab : String) :
    ∀ (l1 : List FrontSlot) (l2 : List AObj) (n : Nat) (s : FrontSlot)
      (a : AObj), l1[n]? = some s → l2[n]? = some a →
      ((l1.zip l2).map
        (fun p => if p.2.label = lab then FrontSlot.direct else p.1))[n]?
        = some (if a.label = lab then FrontSlot.direct else s)
  | [], _, _, _, _, h1, _ => by simp at h1
  | _ :: _, [], _, _, _, _, h2 => by simp at h2
  | x :: _, y :: _, 0, _, _, h1, h2 => by
      simp only [List.getElem?_cons_zero, Option.some.injEq] at h1 h2
      subst h1; subst h2
      simp [List.zip_cons_cons]
  | _ :: xs, _ :: ys, n+1, s, a, h1, h2 => by
      simpa using zipmap_front_get lab xs ys n s a (by simpa using h1)
        (by simpa using h2)

/-- C9: `add_input`, `add_output`, `remove_audio_input` and
`remove_audio_output` preserve the invariant that the front and direct
input vectors have equal length, and likewise for the output vectors;
removal does not shrink the vectors but replaces each matching slot, in
both the front and the direct vector, with a fresh `NULLFILE` object,
leaving every other slot untouched, so chain indices into the remaining
objects stay valid. -/
theorem claim_C9 (cs : CS) (a : AObj) (tr : Bool) (lab : String)
    (hin : cs.inputs.length = cs.inputs_direct.length)
    (hout : cs.outputs.length = cs.outputs_direct.length) :
    ((add_input cs a).inputs.length = (add_input cs a).inputs_direct.length ∧
     (add_input cs a).outputs.length
       = (add_input cs a).outputs_direct.length) ∧
    ((add_output cs a tr).inputs.length
       = (add_output cs a tr).inputs_direct.length ∧
     (add_output cs a tr).outputs.length
       = (add_output cs a tr).outputs_direct.length) ∧
    ((remove_audio_input cs lab).inputs.length
       = (remove_audio_input cs lab).inputs_direct.length ∧
     (remove_audio_input cs lab).inputs_direct.length
       = cs.inputs_direct.length ∧
     (remove_audio_input cs lab).outputs = cs.outputs ∧
     (remove_audio_input cs lab).outputs_direct = cs.outputs_direct ∧
     ∀ (n : Nat) (s0 : FrontSlot) (a0 : AObj),
       cs.inputs[n]? = some s0 → cs.inputs_direct[n]? = some a0 →
       (remove_audio_input cs lab).inputs_direct[n]?
         = some (if a0.label = lab then nullfileObj else a0) ∧
       (remove_audio_input cs lab).inputs[n]?
         = some (if a0.label = lab then FrontSlot.direct else s0)) ∧
    ((remove_audio_output cs lab).outputs.length
       = (remove_audio_output cs lab).outputs_direct.length ∧
     (remove_audio_output cs lab).outputs_direct.length
       = cs.outputs_direct.length ∧
     (remove_audio_output cs lab).inputs = cs.inputs ∧
     (remove_audio_output cs lab).inputs_direct = cs.inputs_direct ∧
     ∀ (n : Nat) (s0 : FrontSlot) (a0 : AObj),
       cs.outputs[n]? = some s0 → cs.outputs_direct[n]? = some a0 →
       (remove_audio_output cs lab).outputs_direct[n]?
         = some (if a0.label = lab then nullfileObj else a0) ∧
       (remove_audio_output cs lab).outputs[n]?
         = some (if a0.label = lab then FrontSlot.direct else s0)) := by
  refine ⟨⟨?_, ?_⟩, ⟨?_, ?_⟩, ⟨?_, ?_, rfl, rfl, ?_⟩, ⟨?_, ?_, rfl, rfl, ?_⟩⟩
  · show (cs.inputs ++ _).length = (cs.inputs_direct ++ _).length
    simp [hin]
  · exact hout
  · exact hin
  · show (cs.outputs ++ _).length = (cs.outputs_direct ++ _).length
    simp [hout]
  · show ((cs.inputs.zip cs.inputs_direct).map _).length
      = (cs.inputs_direct.map _).length
    rw [List.length_map, List.length_map, List.length_zip, hin, min_self]
  · show (cs.inputs_direct.map _).length = cs.inputs_direct.length
    exact List.length_map _ _
  · intro n s0 a0 h1 h2
    refine ⟨?_, zipmap_front_get lab cs.inputs cs.inputs_direct n s0 a0 h1 h2⟩
    show (cs.inputs_direct.map
      (fun a => if a.label = lab then nullfileObj else a))[n]? = _
    rw [List.getElem?_map, h2]
    rfl
  · show ((cs.outputs.zip cs.outputs_direct).map _).length
      = (cs.outputs_direct.map _).length
    rw [List.length_map, List.length_map, List.length_zip, hout, min_self]
  · show (cs.outputs_direct.map _).length = cs.outputs_direct.length
    exact List.length_map _ _
  · intro n s0 a0 h1 h2
    refine ⟨?_,
      zipmap_front_get lab cs.outputs cs.outputs_direct n s0 a0 h1 h2⟩
    show (cs.outputs_direct.map
      (fun a => if a.label = lab then nullfileObj else a))[n]? = _
    rw [List.getElem?_map, h2]
    rfl

/-- A chainsetup with two inputs (one labelled "foo") and one output,
with parallel vectors of equal length. -/
def csC9 : CS :=
  {csEmpty with
    inputs := [FrontSlot.direct, FrontSlot.direct],
    inputs_direct := [mkFile "foo" 44100, mkFile "bar" 44100],
    input_start_pos := [0, 0],
    outputs := [FrontSlot.direct],
    outputs_direct := [mkFile "out" 44100],
    output_start_pos := [0]}

/-- C9 at a concrete chainsetup: both parallel-vector length invariants
hold, and after removing "foo" the direct input vector keeps its
length. -/
theorem claim_C9_witness :
    csC9.inputs.length = csC9.inputs_direct.length ∧
    csC9.outputs.length = csC9.outputs_direct.length ∧
    (remove_audio_input csC9 "foo").inputs_direct.length
      = csC9.inputs_direct.length :=
  ⟨rfl, rfl, ((claim_C9 csC9 (mkFile "x" 44100) true "foo" rfl rfl).2.2.1).2.1⟩

/-! ## audioio-proxy-server.cpp: the proxy server work loop -/

/-- Modelled from the spec: a registered proxy client (§4.4).  A single
buffer transfer (`read_buffer`/`write_buffer`) is abstracted as
incrementing a transfer counter; the client's `finished()` status is an
arbitrary function of how many transfers have happened. -/
structure PClient where
  ops : Nat
  finishedAfter : Nat → Bool

/-- One `read_buffer` call on the client (one buffer transferred). -/
def PClient.read_buffer (c : PClient) : PClient := {c with ops := c.ops + 1}

/-- One `write_buffer` call on the client (one buffer transferred). -/
def PClient.write_buffer (c : PClient) : PClient := {c with ops := c.ops + 1}

/-- The client's `finished()` status. -/
def PClient.finished (c : PClient) : Bool := c.finishedAfter c.ops

/-- Modelled from the spec: the per-client ring `AUDIO_IO_PROXY_BUFFER`
(§4.3 ProxyRing) — its header is not under src/.  A fixed cycle of
`bufcount` slots, a write index, a read index, a finished flag and an
i/o direction. -/
structure ProxyBuf where
  io_mode_rep : IoMode
  bufcount : Nat
  readptr_rep : Nat
  writeptr_rep : Nat
  finished_rep : Bool
deriving DecidableEq, Repr

/-- Modelled from the spec: ring occupancy (number of readable slots),
with both indices taken modulo the capacity. -/
def ProxyBuf.occupancy (b : ProxyBuf) : Nat :=
  (b.bufcount + b.writeptr_rep - b.readptr_rep) % b.bufcount

/-- Modelled from the spec: `read_space = occupancy` (§4.3). -/
def ProxyBuf.read_space (b : ProxyBuf) : Nat := b.occupancy

/-- Modelled from the spec: `write_space = N - occupancy` (§4.3). -/
def ProxyBuf.write_space (b : ProxyBuf) : Nat := b.bufcount - b.occupancy

/-- Modelled from the spec: `advance_write_pointer` steps the write
index by one slot, wrapping at the capacity. -/
def ProxyBuf.advance_write_pointer (b : ProxyBuf) : ProxyBuf :=
  {b with writeptr_rep := (b.writeptr_rep + 1) % b.bufcount}

/-- Modelled from the spec: `advance_read_pointer`. -/
def ProxyBuf.advance_read_pointer (b : ProxyBuf) : ProxyBuf :=
  {b with readptr_rep := (b.readptr_rep + 1) % b.bufcount}

/-- The body of the per-client loop of
`AUDIO_IO_PROXY_SERVER::io_thread` (audioio-proxy-server.cpp:159-196)
for one client slot: the updated client, the updated ring, and how many
buffers were processed (0 or 1).  A null client or a finished ring is
skipped; a read-direction client with positive write space has one
buffer read from it (the ring is marked finished if the client then
reports finished) and the write pointer advanced; a write-direction
client with positive read space has one buffer written (likewise) and
the read pointer advanced. -/
def serve_step (c : Option PClient) (b : ProxyBuf) :
    Option PClient × ProxyBuf × Nat :=
  match c with
  | none => (none, b, 0)
  | some cl =>
    if b.finished_rep = true then (some cl, b, 0)
    else if b.io_mode_rep = IoMode.io_read then
      if 0 < b.write_space then
        let cl' := cl.read_buffer
        (some cl',
         (if cl'.finished = true then {b with finished_rep := true}
          else b).advance_write_pointer, 1)
      else (some cl, b, 0)
    else
      if 0 < b.read_space then
        let cl' := cl.write_buffer
        (some cl',
         (if cl'.finished = true then {b with finished_rep := true}
          else b).advance_read_pointer, 1)
      else (some cl, b, 0)

/-- The whole `for(p = 0; p < clients_rep.size(); p++)` pass
(audioio-proxy-server.cpp:159-196) over the parallel client and ring
vectors: the updated vectors and the total `processed` count. -/
def io_pass_clients :
    List (Option PClient) → List ProxyBuf →
      List (Option PClient) × List ProxyBuf × Nat
  | [], _ => ([], [], 0)
  | _ :: _, [] => ([], [], 0)
  | c :: cs, b :: bs =>
    let r := serve_step c b
    let rest := io_pass_clients cs bs
    (r.1 :: rest.1, r.2.1 :: rest.2.1, r.2.2 + rest.2.2)

/-- State of `AUDIO_IO_PROXY_SERVER` as seen by one iteration of the
work loop: the parallel client/ring vectors and the atomic flags. -/
structure PServer where
  clients_rep : List (Option PClient)
  buffers_rep : List ProxyBuf
  running_rep : Bool
  full_rep : Bool
  stop_request_rep : Bool

/-- One iteration of the `while(true)` body of
`AUDIO_IO_PROXY_SERVER::io_thread` (audioio-proxy-server.cpp:151-212).
If not running, the thread only sleeps (state unchanged); otherwise it
serves every client once, honours a pending stop request, and sets the
full flag exactly when no buffer was processed in the pass. -/
def io_thread_iteration (s : PServer) : PServer :=
  if s.running_rep = false then s
  else
    let r := io_pass_clients s.clients_rep s.buffers_rep
    {s with
      clients_rep := r.1,
      buffers_rep := r.2.1,
      running_rep := if s.stop_request_rep = true then false
                     else s.running_rep,
      stop_request_rep := false,
      full_rep := decide (r.2.2 = 0)}

/-- Element `n` of the client and ring vectors after a pass is the
result of `serve_step` on the old elements at `n`. -/
theorem io_pass_clients_get :
    ∀ (cs : List (Option PClient)) (bs : List ProxyBuf) (n : Nat)
      (c : Option PClient) (b : ProxyBuf),
      cs[n]? = some c → bs[n]? = some b →
      (io_pass_clients cs bs).1[n]? = some (serve_step c b).1 ∧
      (io_pass_clients cs bs).2.1[n]? = some (serve_step c b).2.1
  | [], _, _, _, _, h1, _ => by simp at h1
  | _ :: _, [], _, _, _, _, h2 => by simp at h2
  | x :: _, y :: _, 0, _, _, h1, h2 => by
      simp only [List.getElem?_cons_zero, Option.some.injEq] at h1 h2
      subst h1; subst h2
      exact ⟨by simp [io_pass_clients], by simp [io_pass_clients]⟩
  | _ :: xs, _ :: ys, n+1, c, b, h1, h2 => by
      have ih := io_pass_clients_get xs ys n c b (by simpa using h1)
        (by simpa using h2)
      exact ⟨by simpa [io_pass_clients] using ih.1,
             by simpa [io_pass_clients] using ih.2⟩

/-- The ring after a successful read-direction transfer: the finished
flag takes the client's post-transfer status and the write pointer
advances by one slot. -/
theorem ring_update_write (b : ProxyBuf) (v : Bool)
    (hbf : b.finished_rep = false) :
    (if v = true then {b with finished_rep := true}
     else b).advance_write_pointer
      = {b with finished_rep := v,
                writeptr_rep := (b.writeptr_rep + 1) % b.bufcount} := by
  cases b
  cases v <;> simp_all [ProxyBuf.advance_write_pointer]

/-- The ring after a successful write-direction transfer. -/
theorem ring_update_read (b : ProxyBuf) (v : Bool)
    (hbf : b.finished_rep = false) :
    (if v = true then {b with finished_rep := true}
     else b).advance_read_pointer
      = {b with finished_rep := v,
                readptr_rep := (b.readptr_rep + 1) % b.bufcount} := by
  cases b
  cases v <;> simp_all [ProxyBuf.advance_read_pointer]

/-- `serve_step` on a client whose ring is already marked finished:
skipped. -/
theorem serve_step_finished (cl : PClient) (b : ProxyBuf)
    (hbf : b.finished_rep = true) :
    serve_step (some cl) b = (some cl, b, 0) := by
  unfold serve_step
  dsimp only
  rw [if_pos hbf]

/-- `serve_step` on a read-direction client with positive write space:
one buffer is read, the ring takes the client's post-transfer finished
status, and the write pointer advances. -/
theorem serve_step_read (cl : PClient) (b : ProxyBuf)
    (hbf : b.finished_rep = false) (hio : b.io_mode_rep = IoMode.io_read)
    (hws : 0 < b.write_space) :
    serve_step (some cl) b
      = (some {cl with ops := cl.ops + 1},
         {b with finished_rep := cl.read_buffer.finished,
                 writeptr_rep := (b.writeptr_rep + 1) % b.bufcount}, 1) := by
  unfold serve_step
  dsimp only
  rw [if_neg (by simp [hbf]), if_pos hio, if_pos hws,
    ring_update_write b cl.read_buffer.finished hbf]
  rfl

/-- `serve_step` on a write-direction client with positive read space. -/
theorem serve_step_write (cl : PClient) (b : ProxyBuf)
    (hbf : b.finished_rep = false) (hio : b.io_mode_rep ≠ IoMode.io_read)
    (hrs : 0 < b.read_space) :
    serve_step (some cl) b
      = (some {cl with ops := cl.ops + 1},
         {b with finished_rep := cl.write_buffer.finished,
                 readptr_rep := (b.readptr_rep + 1) % b.bufcount}, 1) := by
  unfold serve_step
  dsimp only
  rw [if_neg (by simp [hbf]), if_neg hio, if_pos hrs,
    ring_update_read b cl.write_buffer.finished hbf]
  rfl

/-- `serve_step` on a read-direction client with a saturated ring:
skipped. -/
theorem serve_step_read_full (cl : PClient) (b : ProxyBuf)
    (hbf : b.finished_rep = false) (hio : b.io_mode_rep = IoMode.io_read)
    (hws : b.write_space = 0) :
    serve_step (some cl) b = (some cl, b, 0) := by
  unfold serve_step
  dsimp only
  rw [if_neg (by simp [hbf]), if_pos hio, if_neg (by rw [hws]; simp)]

/-- `serve_step` on a write-direction client with an empty ring:
skipped. -/
theorem serve_step_write_empty (cl : PClient) (b : ProxyBuf)
    (hbf : b.finished_rep = false) (hio : b.io_mode_rep ≠ IoMode.io_read)
    (hrs : b.read_space = 0) :
    serve_step (some cl) b = (some cl, b, 0) := by
  unfold serve_step
  dsimp only
  rw [if_neg (by simp [hbf]), if_neg hio, if_neg (by rw [hrs]; simp)]

/-- C5: in every pass of the proxy-server work loop executed while
running, null clients and clients with a finished ring are skipped
(client and ring unchanged); each read-direction client with positive
write space has exactly one buffer read from it (transfer counter
increments by one), its ring's finished flag set to the client's
post-transfer status and the write pointer advanced one slot; each
write-direction client with positive read space symmetrically has one
buffer written and the read pointer advanced; a client whose ring has
no space is left unchanged; and after the pass the full flag is set if
and only if zero buffers were processed. -/
theorem claim_C5 (s : PServer) (h : s.running_rep = true) :
    ((io_thread_iteration s).full_rep = true ↔
      (io_pass_clients s.clients_rep s.buffers_rep).2.2 = 0) ∧
    ∀ (n : Nat) (c : Option PClient) (b : ProxyBuf),
      s.clients_rep[n]? = some c → s.buffers_rep[n]? = some b →
      ((c = none ∨ b.finished_rep = true) →
        (io_thread_iteration s).clients_rep[n]? = some c ∧
        (io_thread_iteration s).buffers_rep[n]? = some b) ∧
      (∀ cl : PClient, c = some cl → b.finished_rep = false →
        b.io_mode_rep = IoMode.io_read → 0 < b.write_space →
        (io_thread_iteration s).clients_rep[n]?
          = some (some {cl with ops := cl.ops + 1}) ∧
        (io_thread_iteration s).buffers_rep[n]?
          = some {b with finished_rep := cl.read_buffer.finished,
                         writeptr_rep :=
                           (b.writeptr_rep + 1) % b.bufcount}) ∧
      (∀ cl : PClient, c = some cl → b.finished_rep = false →
        b.io_mode_rep ≠ IoMode.io_read → 0 < b.read_space →
        (io_thread_iteration s).clients_rep[n]?
          = some (some {cl with ops := cl.ops + 1}) ∧
        (io_thread_iteration s).buffers_rep[n]?
          = some {b with finished_rep := cl.write_buffer.finished,
                         readptr_rep :=
                           (b.readptr_rep + 1) % b.bufcount}) ∧
      (∀ cl : PClient, c = some cl → b.finished_rep = false →
        ((b.io_mode_rep = IoMode.io_read ∧ b.write_space = 0) ∨
         (b.io_mode_rep ≠ IoMode.io_read ∧ b.read_space = 0)) →
        (io_thread_iteration s).clients_rep[n]? = some c ∧
        (io_thread_iteration s).buffers_rep[n]? = some b) := by
  have hcl : (io_thread_iteration s).clients_rep
      = (io_pass_clients s.clients_rep s.buffers_rep).1 := by
    simp [io_thread_iteration, h]
  have hbuf : (io_thread_iteration s).buffers_rep
      = (io_pass_clients s.clients_rep s.buffers_rep).2.1 := by
    simp [io_thread_iteration, h]
  have hfull : (io_thread_iteration s).full_rep
      = decide ((io_pass_clients s.clients_rep s.buffers_rep).2.2 = 0) := by
    simp [io_thread_iteration, h]
  refine ⟨by rw [hfull]; exact decide_eq_true_iff, ?_⟩
  intro n c b h1 h2
  obtain ⟨hc, hb⟩ :=
    io_pass_clients_get s.clients_rep s.buffers_rep n c b h1 h2
  rw [hcl, hbuf]
  refine ⟨?_, ?_, ?_, ?_⟩
  · rintro (rfl | hbf)
    · exact ⟨hc, hb⟩
    · rcases c with _ | cl
      · exact ⟨hc, hb⟩
      · rw [hc, hb, serve_step_finished cl b hbf]
        exact ⟨rfl, rfl⟩
  · rintro cl rfl hbf hio hws
    rw [hc, hb, serve_step_read cl b hbf hio hws]
    exact ⟨rfl, rfl⟩
  · rintro cl rfl hbf hio hrs
    rw [hc, hb, serve_step_write cl b hbf hio hrs]
    exact ⟨rfl, rfl⟩
  · rintro cl rfl hbf hsp
    rcases hsp with ⟨hio, hws⟩ | ⟨hio, hrs⟩
    · rw [hc, hb, serve_step_read_full cl b hbf hio hws]
      exact ⟨rfl, rfl⟩
    · rw [hc, hb, serve_step_write_empty cl b hbf hio hrs]
      exact ⟨rfl, rfl⟩

/-- A running proxy server with one read-direction client and an empty
4-slot ring. -/
def srvC5 : PServer :=
  { clients_rep := [some ⟨0, fun _ => false⟩],
    buffers_rep := [⟨IoMode.io_read, 4, 0, 0, false⟩],
    running_rep := true,
    full_rep := false,
    stop_request_rep := false }

/-- C5 at a concrete running server: the full flag after the pass
matches whether zero buffers were processed. -/
theorem claim_C5_witness :
    srvC5.running_rep = true ∧
    ((io_thread_iteration srvC5).full_rep = true ↔
      (io_pass_clients srvC5.clients_rep srvC5.buffers_rep).2.2 = 0) :=
  ⟨rfl, (claim_C5 srvC5 rfl).1⟩
